import Mathlib

/-!
# Verification of the scaffold materialization engine

A shallow embedding, in Lean 4, of the core of `scripts/scaffold_apply.py`
(and the domain-graph validator of `app/models.py`) from the scaffold
materialization repository, together with theorems settling the frozen
claims about its natural-language specification.

Modelling conventions:
* Python JSON-ish values are modelled by the inductive type `JVal`;
  `dict.get(k, d)` becomes `JVal.getD`, one-argument `.get(k)` (returning
  `None`) becomes `JVal.get?`.
* Machine text is `String` / `List Char`; the regular-expression scans of
  the template engine are modelled character by character with the exact
  leftmost / lazy-match semantics of `re.sub` / `re.search`.
* Loops that Python runs until a condition fails are given explicit fuel
  that provably dominates the loop's variant, so every definition is
  executable and kernel-reducible; theorems certify the fuel never runs out
  on the stated inputs.
* The filesystem is a pair of stores: the read-only template tree and the
  project tree under the target root (paths as segment lists).  Python float
  arithmetic is modelled by exact rationals; no claim below depends on
  floating-point rounding or float formatting.
-/

/-- A JSON-like Python value as manipulated by `scaffold_apply.py`
(`json.loads` output plus the booleans the script itself inserts). -/
inductive JVal where
  | null
  | bool (b : Bool)
  | int (n : Int)
  | float (q : Rat)
  | str (s : String)
  | arr (xs : List JVal)
  | obj (kvs : List (String × JVal))

/-- First-match association lookup on a key/value list (parsed JSON
objects have unique keys, so this agrees with Python `dict` lookup). -/
def assocLookup : List (String × JVal) → String → Option JVal
  | [], _ => none
  | (k', v) :: rest, k => if k' = k then some v else assocLookup rest k

/-- Python `dict` lookup on an object value; non-objects yield `none`
(Python would raise `AttributeError`; the claims below only exercise this
on objects, mirroring runs that do not crash). -/
def JVal.lookup : JVal → String → Option JVal
  | .obj kvs, k => assocLookup kvs k
  | _, _ => none

/-- Python `d.get(k, default)`. -/
def JVal.getD (j : JVal) (k : String) (d : JVal) : JVal :=
  (j.lookup k).getD d

/-- Python one-argument `d.get(k)`: missing keys yield `None`. -/
def JVal.get? (j : JVal) (k : String) : JVal :=
  j.getD k .null

/-- Python truthiness (`if value:`) of a JSON-ish value. -/
def JVal.truthy : JVal → Bool
  | .null => false
  | .bool b => b
  | .int n => n != 0
  | .float q => q != 0
  | .str s => s != ""
  | .arr xs => !xs.isEmpty
  | .obj kvs => !kvs.isEmpty

/-- Python `len` of a list value (the script only applies `len` to lists;
other shapes would raise and are given length 0, a case never reached by
the runs the theorems describe). -/
def JVal.pyLen : JVal → Nat
  | .arr xs => xs.length
  | _ => 0

/-- Python `lst[i]` on a list value.  The script only indexes lists it has
just checked to be long enough; out-of-range (which would raise in Python)
is mapped to `null`. -/
def JVal.idx : JVal → Nat → JVal
  | .arr xs, i => xs.getD i .null
  | _, _ => .null

/-- The underlying string of a string value.  The script applies string
operations (`lower`, path joins, f-strings) to values that are strings in
every validated document; a non-string here would raise `TypeError` in
Python (surfacing as `SCAFFOLD_FAILED`), and the theorems below only
instantiate string values. -/
def JVal.asStr : JVal → String
  | .str s => s
  | _ => ""

/-- The elements of a list value (`[]` for non-lists, which the script
never reaches without raising). -/
def JVal.asArr : JVal → List JVal
  | .arr xs => xs
  | _ => []

/-- First-match lookup in the flat template-variable environment
(`variables.get(name)`); the environment dict is built with unique keys. -/
def lookupVar (vars : List (String × JVal)) (name : String) : Option JVal :=
  assocLookup vars name

/-! ## Template Substitution Engine (`substitute_variables`)

Character-level model of the three regex passes of
`substitute_variables`: `{{VAR}}` interpolation, the `{{#if VAR}}...{{/if}}`
fixpoint loop (`process_conditionals`), and the single
`{{#each domains}}...{{/each}}` pass.  All braces below are spelled as
character literals, never inside string literals. -/

/-- The character class `[A-Z_0-9]` of template variable names. -/
def varChar (c : Char) : Bool :=
  ('A' ≤ c && c ≤ 'Z') || ('0' ≤ c && c ≤ '9') || c = '_'

/-- The Python regex class `\s` (whitespace). -/
def wsChar (c : Char) : Bool :=
  c = ' ' || c = '\t' || c = '\n' || c = '\x0d' || c = '\x0b' || c = '\x0c'

/-- Try to match the conditional opener regex `\{\{#if\s+([A-Z_0-9]+)\}\}`
at the head of the text; on success return the captured name and the text
after the opener.  (`\s+` and `[A-Z_0-9]+` are greedy; since the two
classes are disjoint and neither contains `}`, maximal munch is exact.) -/
def matchIfOpen : List Char → Option (String × List Char)
  | a :: b :: c :: d :: e :: rest =>
    if a = '{' ∧ b = '{' ∧ c = '#' ∧ d = 'i' ∧ e = 'f' then
      if (rest.takeWhile wsChar).isEmpty then none
      else
        if ((rest.dropWhile wsChar).takeWhile varChar).isEmpty then none
        else
          match (rest.dropWhile wsChar).dropWhile varChar with
          | x :: y :: r3 =>
            if x = '}' ∧ y = '}' then
              some (⟨(rest.dropWhile wsChar).takeWhile varChar⟩, r3)
            else none
          | _ => none
    else none
  | _ => none

/-- Match the literal closer `\{\{/if\}\}` at the head of the text,
returning the remainder. -/
def stripClose? : List Char → Option (List Char)
  | a :: b :: c :: d :: e :: x :: y :: r =>
    if a = '{' ∧ b = '{' ∧ c = '/' ∧ d = 'i' ∧ e = 'f' ∧ x = '}' ∧ y = '}' then
      some r
    else none
  | _ => none

/-- Split at the first occurrence of `{{/if}}` (the lazy `(.*?)` of the
conditional regex): returns the text before it and the text after it. -/
def splitAtClose : List Char → Option (List Char × List Char)
  | [] => none
  | c :: rest =>
    match stripClose? (c :: rest) with
    | some r => some ([], r)
    | none =>
      match splitAtClose rest with
      | some (inner, post) => some (c :: inner, post)
      | none => none

/-- Whether `re.search` finds a conditional-block match
(`\{\{#if\s+([A-Z_0-9]+)\}\}(.*?)\{\{/if\}\}` with `DOTALL`) anywhere in
the text: some opener position is followed by a closer. -/
def hasIfMatch : List Char → Bool
  | [] => false
  | c :: rest =>
    match matchIfOpen (c :: rest) with
    | some (_, afterOpen) => (splitAtClose afterOpen).isSome || hasIfMatch rest
    | none => hasIfMatch rest

/-- One `re.sub` pass over the text for the conditional-block pattern:
scan left to right; at each match replace the whole block by the inner
text when the variable is truthy, by nothing otherwise, and resume
scanning after the match (`re.sub` does not rescan replacements).
`ρ` is the truthiness of `variables.get(name, False)`.  The fuel dominates
the text length, so it never runs out when called via `subPassIf`. -/
def subPassGo (ρ : String → Bool) : Nat → List Char → List Char
  | 0, cs => cs
  | _ + 1, [] => []
  | n + 1, c :: rest =>
    match matchIfOpen (c :: rest) with
    | some (nm, afterOpen) =>
      match splitAtClose afterOpen with
      | some (inner, post) =>
        (if ρ nm then inner else []) ++ subPassGo ρ n post
      | none => c :: subPassGo ρ n rest
    | none => c :: subPassGo ρ n rest

/-- One full `re.sub(pattern, replace_conditional, text, DOTALL)` pass. -/
def subPassIf (ρ : String → Bool) (cs : List Char) : List Char :=
  subPassGo ρ cs.length cs

/-- The `while re.search(...)` loop body of `process_conditionals`,
with fuel.  Each iteration strictly shrinks the text (a matched block
loses at least its 16 marker characters), so `length + 1` fuel suffices. -/
def processConditionalsGo (ρ : String → Bool) : Nat → List Char → List Char
  | 0, cs => cs
  | n + 1, cs =>
    if hasIfMatch cs then processConditionalsGo ρ n (subPassIf ρ cs) else cs

/-- Truthiness of `variables.get(name, False)` for the conditional pass. -/
def condTruthy (vars : List (String × JVal)) (name : String) : Bool :=
  ((lookupVar vars name).getD (.bool false)).truthy

/-- `process_conditionals` from `substitute_variables`: repeatedly
`re.sub` the conditional pattern until `re.search` no longer finds it. -/
def process_conditionals (vars : List (String × JVal)) (s : String) : String :=
  ⟨processConditionalsGo (condTruthy vars) (s.data.length + 1) s.data⟩

/-! Length bookkeeping for the conditional passes: a matched block
consumes at least 9 opener and exactly 7 closer characters. -/

theorem dropWhile_length_le (p : Char → Bool) (l : List Char) :
    (l.dropWhile p).length ≤ l.length := by
  induction l with
  | nil => simp [List.dropWhile]
  | cons a t ih =>
    rw [List.dropWhile_cons]
    split
    · exact le_trans ih (Nat.le_succ _)
    · simp

theorem dropWhile_length_lt_of_takeWhile_ne_nil {p : Char → Bool} {l : List Char}
    (h : ¬ (l.takeWhile p).isEmpty) : (l.dropWhile p).length < l.length := by
  cases l with
  | nil => simp [List.takeWhile] at h
  | cons a t =>
    by_cases hpa : p a
    · rw [List.dropWhile_cons, if_pos hpa]
      exact Nat.lt_succ_of_le (dropWhile_length_le _ _)
    · simp [List.takeWhile_cons, hpa] at h

theorem matchIfOpen_length {cs : List Char} {nm : String} {r3 : List Char}
    (h : matchIfOpen cs = some (nm, r3)) : r3.length + 9 ≤ cs.length := by
  rw [matchIfOpen.eq_def] at h
  split at h
  · rename_i a b c d e rest
    split at h
    · split at h
      · simp at h
      · split at h
        · simp at h
        · rename_i hws hnm
          have h1 : (rest.dropWhile wsChar).length < rest.length :=
            dropWhile_length_lt_of_takeWhile_ne_nil hws
          have h2 : ((rest.dropWhile wsChar).dropWhile varChar).length
              < (rest.dropWhile wsChar).length :=
            dropWhile_length_lt_of_takeWhile_ne_nil hnm
          split at h
          · rename_i x y r3' hdr
            split at h
            · simp only [Option.some.injEq, Prod.mk.injEq] at h
              obtain ⟨-, rfl⟩ := h
              rw [hdr] at h2
              simp only [List.length_cons] at h1 h2 ⊢
              omega
            · simp at h
          · simp at h
    · simp at h
  · simp at h

theorem stripClose?_shape {cs r : List Char} (h : stripClose? cs = some r) :
    cs.length = r.length + 7 := by
  rw [stripClose?.eq_def] at h
  split at h
  · split at h
    · simp only [Option.some.injEq] at h
      subst h; simp
    · simp at h
  · simp at h

theorem splitAtClose_length {cs inner post : List Char}
    (h : splitAtClose cs = some (inner, post)) :
    inner.length + post.length + 7 = cs.length := by
  induction cs generalizing inner post with
  | nil => simp [splitAtClose] at h
  | cons c rest ih =>
    rw [splitAtClose] at h
    split at h
    · rename_i r hsc
      simp only [Option.some.injEq, Prod.mk.injEq] at h
      obtain ⟨rfl, rfl⟩ := h
      have := stripClose?_shape hsc
      simpa using this.symm
    · split at h
      · rename_i inner' post' hrec
        simp only [Option.some.injEq, Prod.mk.injEq] at h
        obtain ⟨rfl, rfl⟩ := h
        have := ih hrec
        simp only [List.length_cons]
        omega
      · exact absurd h (by simp)

theorem subPassGo_length_le (ρ : String → Bool) :
    ∀ (n : Nat) (cs : List Char), (subPassGo ρ n cs).length ≤ cs.length := by
  intro n
  induction n with
  | zero => intro cs; simp [subPassGo]
  | succ n ih =>
    intro cs
    match cs with
    | [] => simp [subPassGo]
    | c :: rest =>
      rw [subPassGo]
      split
      · rename_i nm afterOpen ho
        split
        · rename_i inner post hs
          have h1 := matchIfOpen_length ho
          have h2 := splitAtClose_length hs
          have h3 := ih post
          have h4 : (if ρ nm then inner else []).length ≤ inner.length := by
            split <;> simp
          rw [List.length_append]
          simp only [List.length_cons] at h1 ⊢
          omega
        · simp only [List.length_cons]
          exact Nat.succ_le_succ (ih rest)
      · simp only [List.length_cons]
        exact Nat.succ_le_succ (ih rest)

theorem subPassGo_length_lt (ρ : String → Bool) :
    ∀ (n : Nat) (cs : List Char), cs.length ≤ n → hasIfMatch cs = true →
      (subPassGo ρ n cs).length < cs.length := by
  intro n
  induction n with
  | zero =>
    intro cs hlen hmatch
    interval_cases h : cs.length
    · rw [List.length_eq_zero] at h; subst h; simp [hasIfMatch] at hmatch
  | succ n ih =>
    intro cs hlen hmatch
    match cs with
    | [] => simp [hasIfMatch] at hmatch
    | c :: rest =>
      rw [subPassGo]
      split
      · rename_i nm afterOpen ho
        split
        · rename_i inner post hs
          have h1 := matchIfOpen_length ho
          have h2 := splitAtClose_length hs
          have h3 := subPassGo_length_le ρ n post
          have h4 : (if ρ nm then inner else []).length ≤ inner.length := by
            split <;> simp
          rw [List.length_append]
          simp only [List.length_cons] at h1 ⊢
          omega
        · rename_i hs
          rw [hasIfMatch, ho] at hmatch
          simp only [hs, Option.isSome_none, Bool.false_or] at hmatch
          have hr : rest.length ≤ n := by
            simp only [List.length_cons] at hlen; omega
          have := ih rest hr hmatch
          simp only [List.length_cons]
          omega
      · rename_i ho
        rw [hasIfMatch] at hmatch
        split at hmatch
        · rename_i ho'
          rw [ho] at ho'; cases ho'
        · have hr : rest.length ≤ n := by
            simp only [List.length_cons] at hlen; omega
          have := ih rest hr hmatch
          simp only [List.length_cons]
          omega

/-- The fixpoint loop of `process_conditionals` really reaches a fixpoint:
with fuel dominating the text length, the returned text admits no further
conditional-block match. -/
theorem processConditionalsGo_fixpoint (ρ : String → Bool) :
    ∀ (n : Nat) (cs : List Char), cs.length < n →
      hasIfMatch (processConditionalsGo ρ n cs) = false := by
  intro n
  induction n with
  | zero => intro cs h; omega
  | succ n ih =>
    intro cs hlen
    rw [processConditionalsGo]
    by_cases hm : hasIfMatch cs
    · rw [if_pos hm]
      have hne : cs ≠ [] := by
        intro hcs; subst hcs; simp [hasIfMatch] at hm
      have hpos : 0 < cs.length := List.length_pos.mpr hne
      have hlt := subPassGo_length_lt ρ cs.length cs le_rfl hm
      exact ih _ (by unfold subPassIf; omega)
    · rw [if_neg hm]
      exact Bool.not_eq_true _ ▸ hm

/-- Whether the literal closer marker `{{/if}}` occurs anywhere in the text. -/
def containsCloseMarker : List Char → Bool
  | [] => false
  | c :: rest => (stripClose? (c :: rest)).isSome || containsCloseMarker rest

/-- Environment used in the C3 counterexample: a falsy outer variable
wrapping a truthy inner one. -/
def exEnvC3 : List (String × JVal) := [("A", .bool false), ("B", .bool true)]

/-- C3 (amended): conditional-block expansion terminates for every
environment and source text, and its output admits no further complete
conditional block `{{#if NAME}}...{{/if}}` (the loop exits exactly when
`re.search` fails); stray lone markers, however, can survive — see the
counterexample. -/
theorem C3_conditional_expansion_reaches_fixpoint
    (vars : List (String × JVal)) (s : String) :
    hasIfMatch (process_conditionals vars s).data = false := by
  unfold process_conditionals
  exact processConditionalsGo_fixpoint _ _ _ (Nat.lt_succ_self _)

/-- C3 counterexample: on `{{#if A}}x{{#if B}}y{{/if}}z{{/if}}` with `A`
falsy and `B` truthy, the lazy regex pairs the outer opener with the inner
closer, so the engine returns `z{{/if}}` — a non-empty output that still
contains a conditional marker, refuting both halves of the claim ("no
markers remain" and "the outer falsy conditional yields empty output"). -/
theorem C3_counterexample :
    process_conditionals exEnvC3
        "\x7b\x7b#if A\x7d\x7dx\x7b\x7b#if B\x7d\x7dy\x7b\x7b/if\x7d\x7dz\x7b\x7b/if\x7d\x7d"
      = "z\x7b\x7b/if\x7d\x7d"
    ∧ containsCloseMarker (process_conditionals exEnvC3
        "\x7b\x7b#if A\x7d\x7dx\x7b\x7b#if B\x7d\x7dy\x7b\x7b/if\x7d\x7dz\x7b\x7b/if\x7d\x7d").data
      = true
    ∧ process_conditionals exEnvC3
        "\x7b\x7b#if A\x7d\x7dx\x7b\x7b#if B\x7d\x7dy\x7b\x7b/if\x7d\x7dz\x7b\x7b/if\x7d\x7d"
      ≠ "" := by
  exact ⟨by decide, by decide, by decide⟩

/-! ## Domain Graph Validator (`DomainMapping.validate_no_circular_dependencies`)

From `app/models.py`: build `deps = {d.name: d.dependencies for d in v}`,
then from every not-yet-visited domain run a DFS carrying a shared
`visited` set and a per-root `rec_stack`; an edge into a node on the stack
raises `ValueError` naming the *root* domain of that DFS call. -/

/-- A domain record (`DomainSchema` of `app/models.py`); only `name` and
`dependencies` participate in cycle validation. -/
structure DomainSchema where
  name : String
  description : String
  root_entity : String
  entities : List String
  feature_ids : List String
  dependencies : List String

/-- `deps.get(node, [])` where `deps = {d.name: d.dependencies for d in v}`:
in a Python dict comprehension a later duplicate key overrides an earlier
one, hence the first match in the reversed list. -/
def depsGet (v : List DomainSchema) (node : String) : List String :=
  match v.reverse.find? (fun d => d.name == node) with
  | some d => d.dependencies
  | none => []

/-- The `for neighbor in deps.get(node, [])` loop body of `has_cycle`,
abstracted over the recursive call `rec`.  State is threaded functionally:
the Bool is the return value, the list the `visited` set (Python mutates
it in place).  On a `True` return Python propagates immediately; the
`rec_stack` passed to deeper calls is extended by the caller
(`hasCycleFrom`), and its `rec_stack.remove(node)` on the `False` path is
modelled by the caller keeping its own stack. -/
def dfsList (rec : String → List String → List String → Bool × List String) :
    List String → List String → List String → Bool × List String
  | [], visited, _ => (false, visited)
  | n :: rest, visited, recStack =>
    if n ∉ visited then
      if (rec n visited recStack).1 then (true, (rec n visited recStack).2)
      else dfsList rec rest (rec n visited recStack).2 recStack
    else if n ∈ recStack then (true, visited)
    else dfsList rec rest visited recStack

/-- `has_cycle(node, visited, rec_stack)` of the validator: add `node` to
both sets, then scan its neighbors.  Python's recursion needs no fuel; the
fuel here bounds the recursion depth, which `graphFuel` provably
dominates (each level permanently consumes one unvisited name). -/
def hasCycleFrom (v : List DomainSchema) :
    Nat → String → List String → List String → Bool × List String
  | 0, _, visited, _ => (true, visited)
  | fuel + 1, node, visited, recStack =>
    dfsList (hasCycleFrom v fuel) (depsGet v node) (node :: visited) (node :: recStack)

/-- Every name that can ever be visited: domain names and all entries of
dependency lists. -/
def graphNames (v : List DomainSchema) : List String :=
  v.map (·.name) ++ (v.map (·.dependencies)).flatten

/-- Fuel dominating the DFS recursion depth. -/
def graphFuel (v : List DomainSchema) : Nat := (graphNames v).length + 1

/-- The `for domain in v` loop of the validator: DFS from each unvisited
domain in declaration order; a detected cycle raises naming the root. -/
def validateLoop (v : List DomainSchema) :
    List DomainSchema → List String → Except String Unit
  | [], _ => .ok ()
  | d :: rest, visited =>
    if d.name ∉ visited then
      if (hasCycleFrom v (graphFuel v) d.name visited []).1 then
        .error ("Circular dependency detected involving domain: " ++ d.name)
      else validateLoop v rest (hasCycleFrom v (graphFuel v) d.name visited []).2
    else validateLoop v rest visited

/-- `DomainMapping.validate_no_circular_dependencies` (success or the
raised `ValueError` message). -/
def validate_no_circular_dependencies (v : List DomainSchema) : Except String Unit :=
  validateLoop v v []

/-- The dependency edge relation of the mapping: `a` depends on `b`. -/
def edgeRel (v : List DomainSchema) (a b : String) : Prop :=
  b ∈ depsGet v a

/-- The DFS stack lists the current path in reverse: each entry has an
edge to the one pushed after it. -/
def revChain (v : List DomainSchema) (l : List String) : Prop :=
  List.Chain' (fun a b => edgeRel v b a) l

theorem depsGet_subset_graphNames (v : List DomainSchema) (x : String) :
    depsGet v x ⊆ graphNames v := by
  unfold depsGet
  cases hf : v.reverse.find? (fun d => d.name == x) with
  | none => simp
  | some d =>
    have hd : d ∈ v.reverse := List.mem_of_find?_eq_some hf
    rw [List.mem_reverse] at hd
    intro y hy
    unfold graphNames
    refine List.mem_append.mpr (Or.inr ?_)
    rw [List.mem_flatten]
    exact ⟨d.dependencies, List.mem_map_of_mem _ hd, hy⟩

theorem name_mem_graphNames {v : List DomainSchema} {d : DomainSchema} (hd : d ∈ v) :
    d.name ∈ graphNames v :=
  List.mem_append.mpr (Or.inl (List.mem_map_of_mem _ hd))

/-- If some name has an outgoing edge, it is a declared domain name. -/
theorem edge_source_is_domain {v : List DomainSchema} {a b : String}
    (h : edgeRel v a b) : ∃ d ∈ v, d.name = a := by
  unfold edgeRel depsGet at h
  cases hf : v.reverse.find? (fun d => d.name == a) with
  | none => rw [hf] at h; simp at h
  | some d =>
    have hd : d ∈ v.reverse := List.mem_of_find?_eq_some hf
    have hp := List.find?_some hf
    rw [List.mem_reverse] at hd
    exact ⟨d, hd, by simpa using hp⟩

theorem dfsList_mono
    {rec : String → List String → List String → Bool × List String}
    (hrec : ∀ node vis rs, vis ⊆ (rec node vis rs).2) :
    ∀ (ns vis rs : List String), vis ⊆ (dfsList rec ns vis rs).2 := by
  intro ns
  induction ns with
  | nil => intro vis rs; rw [dfsList]; exact List.Subset.refl vis
  | cons n rest ih =>
    intro vis rs
    rw [dfsList]
    split
    · split
      · exact hrec n vis rs
      · exact (hrec n vis rs).trans (ih _ _)
    · split
      · exact fun _ h => h
      · exact ih _ _

theorem hasCycleFrom_mono (v : List DomainSchema) :
    ∀ (fuel : Nat) (node : String) (vis rs : List String),
      vis ⊆ (hasCycleFrom v fuel node vis rs).2 := by
  intro fuel
  induction fuel with
  | zero => intro node vis rs; rw [hasCycleFrom]; exact List.Subset.refl vis
  | succ fuel ih =>
    intro node vis rs
    rw [hasCycleFrom]
    exact (List.subset_cons_self node vis).trans (dfsList_mono (ih) _ _ _)

/-! Fuel accounting: each DFS level permanently marks one unvisited name. -/

theorem toFinset_subset_of_subset {vis vis' : List String} (h : vis ⊆ vis') :
    vis.toFinset ⊆ vis'.toFinset := fun x hx =>
  List.mem_toFinset.mpr (h (List.mem_toFinset.mp hx))

theorem card_unvisited_mono {vis vis' : List String} (h : vis ⊆ vis')
    (A : Finset String) :
    (A \ vis'.toFinset).card ≤ (A \ vis.toFinset).card :=
  Finset.card_le_card
    (Finset.sdiff_subset_sdiff (le_refl A) (toFinset_subset_of_subset h))

theorem card_unvisited_lt {v : List DomainSchema} {node : String}
    {vis : List String} {fuel : Nat}
    (hn : node ∈ graphNames v) (hnv : node ∉ vis)
    (h : ((graphNames v).toFinset \ vis.toFinset).card < fuel + 1) :
    ((graphNames v).toFinset \ (node :: vis).toFinset).card < fuel := by
  have hmem : node ∈ (graphNames v).toFinset \ vis.toFinset := by
    rw [Finset.mem_sdiff, List.mem_toFinset, List.mem_toFinset]
    exact ⟨hn, hnv⟩
  have heq : (graphNames v).toFinset \ (node :: vis).toFinset
      = ((graphNames v).toFinset \ vis.toFinset).erase node := by
    ext x
    simp only [List.toFinset_cons, Finset.mem_sdiff, Finset.mem_erase,
      Finset.mem_insert, List.mem_toFinset]
    tauto
  have hpos : 0 < ((graphNames v).toFinset \ vis.toFinset).card :=
    Finset.card_pos.mpr ⟨node, hmem⟩
  rw [heq, Finset.card_erase_of_mem hmem]
  omega

/-! Soundness of the DFS: a `True` return (with adequate fuel) exhibits a
cycle reachable from the root of the DFS call.  `root` is threaded
explicitly: `hroot` says the root reaches every stack entry, `hup` that
every stack entry reaches the entry on top. -/

theorem dfsList_sound (v : List DomainSchema) (fuel : Nat) (root : String)
    (IH : ∀ (node : String) (vis rs : List String),
      node ∉ vis → node ∈ graphNames v →
      ((graphNames v).toFinset \ vis.toFinset).card < fuel →
      (∀ x ∈ node :: rs, Relation.ReflTransGen (edgeRel v) root x) →
      (∀ x ∈ node :: rs, Relation.ReflTransGen (edgeRel v) x node) →
      (hasCycleFrom v fuel node vis rs).1 = true →
      ∃ c, Relation.ReflTransGen (edgeRel v) root c ∧
        Relation.TransGen (edgeRel v) c c) :
    ∀ (ns vis : List String) (h : String) (rs' : List String),
      (∀ n ∈ ns, edgeRel v h n) →
      ((graphNames v).toFinset \ vis.toFinset).card < fuel →
      (∀ x ∈ h :: rs', Relation.ReflTransGen (edgeRel v) root x) →
      (∀ x ∈ h :: rs', Relation.ReflTransGen (edgeRel v) x h) →
      (dfsList (hasCycleFrom v fuel) ns vis (h :: rs')).1 = true →
      ∃ c, Relation.ReflTransGen (edgeRel v) root c ∧
        Relation.TransGen (edgeRel v) c c := by
  intro ns
  induction ns with
  | nil =>
    intro vis h rs' _ _ _ _ hres
    rw [dfsList] at hres
    simp at hres
  | cons n rest ih =>
    intro vis h rs' hedge hcard hroot hup hres
    have hn : edgeRel v h n := hedge n (List.mem_cons_self n rest)
    rw [dfsList] at hres
    split at hres
    · rename_i hnvis
      split at hres
      · rename_i htrue
        refine IH n vis (h :: rs') hnvis
          (depsGet_subset_graphNames v h hn) hcard ?_ ?_ htrue
        · intro x hx
          rcases List.mem_cons.mp hx with rfl | hx'
          · exact (hroot h (List.mem_cons_self h rs')).tail hn
          · exact hroot x hx'
        · intro x hx
          rcases List.mem_cons.mp hx with rfl | hx'
          · exact Relation.ReflTransGen.refl
          · exact (hup x hx').tail hn
      · rename_i hfalse
        refine ih _ h rs' (fun m hm => hedge m (List.mem_cons_of_mem n hm))
          ?_ hroot hup hres
        calc ((graphNames v).toFinset
              \ ((hasCycleFrom v fuel n vis (h :: rs')).2).toFinset).card
            ≤ ((graphNames v).toFinset \ vis.toFinset).card :=
              card_unvisited_mono (hasCycleFrom_mono v fuel n vis (h :: rs')) _
          _ < fuel := hcard
    · split at hres
      · rename_i hnrs
        exact ⟨n, hroot n hnrs,
          Relation.TransGen.tail' (hup n hnrs) hn⟩
      · exact ih _ h rs' (fun m hm => hedge m (List.mem_cons_of_mem n hm))
          hcard hroot hup hres

theorem hasCycleFrom_sound (v : List DomainSchema) :
    ∀ (fuel : Nat) (root node : String) (vis rs : List String),
      node ∉ vis → node ∈ graphNames v →
      ((graphNames v).toFinset \ vis.toFinset).card < fuel →
      (∀ x ∈ node :: rs, Relation.ReflTransGen (edgeRel v) root x) →
      (∀ x ∈ node :: rs, Relation.ReflTransGen (edgeRel v) x node) →
      (hasCycleFrom v fuel node vis rs).1 = true →
      ∃ c, Relation.ReflTransGen (edgeRel v) root c ∧
        Relation.TransGen (edgeRel v) c c := by
  intro fuel
  induction fuel with
  | zero =>
    intro root node vis rs _ _ hcard _ _ _
    omega
  | succ fuel ih =>
    intro root node vis rs hnvis hnames hcard hroot hup hres
    rw [hasCycleFrom] at hres
    refine dfsList_sound v fuel root (ih root) (depsGet v node) (node :: vis)
      node rs (fun m hm => hm) (card_unvisited_lt hnames hnvis hcard)
      hroot hup hres

/-! Completeness of the DFS: a `False` return marks the node black, and
black nodes can never reach a cycle. -/

/-- `x` cannot reach any node lying on a cycle. -/
def Safe (v : List DomainSchema) (x : String) : Prop :=
  ∀ c, Relation.ReflTransGen (edgeRel v) x c →
    ¬ Relation.TransGen (edgeRel v) c c

/-- Every visited node not on the current DFS stack is safe. -/
def SafeInv (v : List DomainSchema) (vis rs : List String) : Prop :=
  ∀ x ∈ vis, x ∉ rs → Safe v x

theorem dfsList_complete (v : List DomainSchema) (fuel : Nat)
    (IH : ∀ (node : String) (vis rs : List String),
      node ∉ vis → rs ⊆ vis → SafeInv v vis rs →
      (hasCycleFrom v fuel node vis rs).1 = false →
      SafeInv v (hasCycleFrom v fuel node vis rs).2 rs ∧ Safe v node) :
    ∀ (ns vis rs : List String),
      rs ⊆ vis → SafeInv v vis rs →
      (dfsList (hasCycleFrom v fuel) ns vis rs).1 = false →
      SafeInv v (dfsList (hasCycleFrom v fuel) ns vis rs).2 rs ∧
        (∀ n ∈ ns, Safe v n) := by
  intro ns
  induction ns with
  | nil =>
    intro vis rs _ hsafe _
    rw [dfsList]
    exact ⟨hsafe, by simp⟩
  | cons n rest ih =>
    intro vis rs hrs hsafe hres
    rw [dfsList] at hres ⊢
    split at hres
    · rename_i hnvis
      split at hres
      · simp at hres
      · rename_i hfalse
        rw [Bool.not_eq_true] at hfalse
        have hsub := IH n vis rs hnvis hrs hsafe hfalse
        have hrec := ih (hasCycleFrom v fuel n vis rs).2 rs
          (hrs.trans (hasCycleFrom_mono v fuel n vis rs)) hsub.1 hres
        rw [if_pos hnvis, if_neg (by simp [hfalse])]
        refine ⟨hrec.1, ?_⟩
        intro m hm
        rcases List.mem_cons.mp hm with rfl | hm'
        · exact hsub.2
        · exact hrec.2 m hm'
    · rename_i hnvis
      rw [Decidable.not_not] at hnvis
      split at hres
      · simp at hres
      · rename_i hnrs
        have hrec := ih vis rs hrs hsafe hres
        rw [if_neg (by simp [hnvis]), if_neg hnrs]
        refine ⟨hrec.1, ?_⟩
        intro m hm
        rcases List.mem_cons.mp hm with rfl | hm'
        · exact hsafe m hnvis hnrs
        · exact hrec.2 m hm'

theorem hasCycleFrom_complete (v : List DomainSchema) :
    ∀ (fuel : Nat) (node : String) (vis rs : List String),
      node ∉ vis → rs ⊆ vis → SafeInv v vis rs →
      (hasCycleFrom v fuel node vis rs).1 = false →
      SafeInv v (hasCycleFrom v fuel node vis rs).2 rs ∧ Safe v node := by
  intro fuel
  induction fuel with
  | zero =>
    intro node vis rs _ _ _ hres
    rw [hasCycleFrom] at hres
    simp at hres
  | succ fuel ih =>
    intro node vis rs hnvis hrs hsafe hres
    rw [hasCycleFrom] at hres ⊢
    have hrs' : (node :: rs) ⊆ (node :: vis) := by
      intro x hx
      rcases List.mem_cons.mp hx with rfl | hx'
      · exact List.mem_cons_self _ _
      · exact List.mem_cons_of_mem _ (hrs hx')
    have hsafe' : SafeInv v (node :: vis) (node :: rs) := by
      intro x hx hxrs
      have hxne : x ≠ node := fun hxeq => hxrs (hxeq ▸ List.mem_cons_self _ _)
      rcases List.mem_cons.mp hx with rfl | hx'
      · exact absurd rfl hxne
      · exact hsafe x hx' (fun hxr => hxrs (List.mem_cons_of_mem _ hxr))
    have hsub := dfsList_complete v fuel ih (depsGet v node) (node :: vis)
      (node :: rs) hrs' hsafe' hres
    have hnodeSafe : Safe v node := by
      intro c hc hcyc
      rcases Relation.ReflTransGen.cases_head hc with rfl | ⟨b, hb, hbc⟩
      · obtain ⟨b, hb, hbc⟩ := Relation.TransGen.head'_iff.mp hcyc
        exact hsub.2 b hb node hbc hcyc
      · exact hsub.2 b hb c hbc hcyc
    refine ⟨?_, hnodeSafe⟩
    intro x hx hxrs
    by_cases hxn : x = node
    · exact hxn ▸ hnodeSafe
    · exact hsub.1 x hx (by
        intro hmem
        rcases List.mem_cons.mp hmem with h1 | h1
        · exact hxn h1
        · exact hxrs h1)

theorem validateLoop_error (v : List DomainSchema) :
    ∀ (ds : List DomainSchema) (vis : List String) (msg : String),
      (∀ d ∈ ds, d ∈ v) →
      validateLoop v ds vis = .error msg →
      ∃ d ∈ v,
        msg = "Circular dependency detected involving domain: " ++ d.name ∧
        ∃ c, Relation.ReflTransGen (edgeRel v) d.name c ∧
          Relation.TransGen (edgeRel v) c c := by
  intro ds
  induction ds with
  | nil =>
    intro vis msg _ h
    rw [validateLoop] at h
    simp at h
  | cons d rest ih =>
    intro vis msg hsub h
    rw [validateLoop] at h
    split at h
    · rename_i hnvis
      split at h
      · rename_i htrue
        simp only [Except.error.injEq] at h
        have hd : d ∈ v := hsub d (List.mem_cons_self d rest)
        have hcard : ((graphNames v).toFinset \ vis.toFinset).card < graphFuel v :=
          calc ((graphNames v).toFinset \ vis.toFinset).card
              ≤ (graphNames v).toFinset.card :=
                Finset.card_le_card (Finset.sdiff_subset)
            _ ≤ (graphNames v).length := List.toFinset_card_le _
            _ < graphFuel v := Nat.lt_succ_self _
        have hself : ∀ x ∈ [d.name],
            Relation.ReflTransGen (edgeRel v) d.name x := by
          intro x hx
          rcases List.mem_singleton.mp hx with rfl
          exact Relation.ReflTransGen.refl
        have hself' : ∀ x ∈ [d.name],
            Relation.ReflTransGen (edgeRel v) x d.name := by
          intro x hx
          rcases List.mem_singleton.mp hx with rfl
          exact Relation.ReflTransGen.refl
        obtain ⟨c, hc1, hc2⟩ := hasCycleFrom_sound v (graphFuel v) d.name d.name
          vis [] hnvis (name_mem_graphNames hd) hcard hself hself' htrue
        exact ⟨d, hd, h.symm, c, hc1, hc2⟩
      · exact ih _ msg (fun x hx => hsub x (List.mem_cons_of_mem d hx)) h
    · exact ih _ msg (fun x hx => hsub x (List.mem_cons_of_mem d hx)) h

theorem validateLoop_ok (v : List DomainSchema) :
    ∀ (ds : List DomainSchema) (vis : List String),
      SafeInv v vis [] →
      validateLoop v ds vis = .ok () →
      ∀ d ∈ ds, Safe v d.name := by
  intro ds
  induction ds with
  | nil => intro vis _ _ d hd; simp at hd
  | cons d rest ih =>
    intro vis hsafe h
    rw [validateLoop] at h
    split at h
    · rename_i hnvis
      split at h
      · simp at h
      · rename_i hfalse
        rw [Bool.not_eq_true] at hfalse
        have hsub := hasCycleFrom_complete v (graphFuel v) d.name vis []
          hnvis (List.nil_subset _) hsafe hfalse
        intro d' hd'
        rcases List.mem_cons.mp hd' with rfl | hd''
        · exact hsub.2
        · exact ih _ hsub.1 h d' hd''
    · rename_i hnvis
      rw [Decidable.not_not] at hnvis
      intro d' hd'
      rcases List.mem_cons.mp hd' with rfl | hd''
      · exact hsafe d'.name hnvis (by simp)
      · exact ih _ hsafe h d' hd''

theorem transGen_last_edge {α : Type} {r : α → α → Prop} {x y : α}
    (h : Relation.TransGen r x y) : ∃ z, r z y := by
  induction h with
  | single h1 => exact ⟨_, h1⟩
  | tail _ h1 _ => exact ⟨_, h1⟩

/-- C4 (amended): the validator succeeds exactly on mappings whose
dependency relation has no (reachable) cycle — in particular it succeeds
on every acyclic mapping and fails on every mapping with a cycle of
length ≥ 2 — and every failure carries the message `"Circular dependency
detected involving domain: <d>"` for a declared domain `d` *from which
the cycle is reachable* (the root of the detecting DFS), which need not
itself lie on the cycle. -/
theorem C4_graph_validation (v : List DomainSchema) :
    (validate_no_circular_dependencies v = .ok () ↔
      ¬ ∃ c, Relation.TransGen (edgeRel v) c c)
    ∧ (∀ msg, validate_no_circular_dependencies v = .error msg →
        ∃ d ∈ v,
          msg = "Circular dependency detected involving domain: " ++ d.name ∧
          ∃ c, Relation.ReflTransGen (edgeRel v) d.name c ∧
            Relation.TransGen (edgeRel v) c c) := by
  constructor
  · constructor
    · intro hok
      rintro ⟨c, hcyc⟩
      obtain ⟨b, hcb, -⟩ := Relation.TransGen.head'_iff.mp hcyc
      obtain ⟨d, hd, hdname⟩ := edge_source_is_domain hcb
      have hs := validateLoop_ok v v [] (fun x hx => by simp at hx) hok d hd
      rw [hdname] at hs
      exact hs c Relation.ReflTransGen.refl hcyc
    · intro hnc
      cases hval : validate_no_circular_dependencies v with
      | ok u => cases u; rfl
      | error m =>
        obtain ⟨d, -, -, c, -, hc⟩ :=
          validateLoop_error v v [] m (fun x hx => hx) hval
        exact absurd ⟨c, hc⟩ hnc
  · intro msg hval
    exact validateLoop_error v v [] msg (fun x hx => hx) hval

/-- Concrete mapping for the C4 counterexample and witness: `a → b`,
`b → c`, `c → b`; the only cycle is `b ↔ c`, and the validator's DFS is
rooted at `a`. -/
def exDomainsC4 : List DomainSchema :=
  [⟨"a", "first domain", "ENT-001", ["ENT-001"], [], ["b"]⟩,
   ⟨"b", "second domain", "ENT-002", ["ENT-002"], [], ["c"]⟩,
   ⟨"c", "third domain", "ENT-003", ["ENT-003"], [], ["b"]⟩]

theorem no_edge_into_a (z : String) : ¬ edgeRel exDomainsC4 z "a" := by
  rcases eq_or_ne z "a" with rfl | ha
  · show "a" ∈ depsGet exDomainsC4 "a" → False
    decide
  · rcases eq_or_ne z "b" with rfl | hb
    · show "a" ∈ depsGet exDomainsC4 "b" → False
      decide
    · rcases eq_or_ne z "c" with rfl | hc
      · show "a" ∈ depsGet exDomainsC4 "c" → False
        decide
      · intro hz
        have e1 : (("a" : String) == z) = false :=
          beq_eq_false_iff_ne.mpr (Ne.symm ha)
        have e2 : (("b" : String) == z) = false :=
          beq_eq_false_iff_ne.mpr (Ne.symm hb)
        have e3 : (("c" : String) == z) = false :=
          beq_eq_false_iff_ne.mpr (Ne.symm hc)
        have hfind : exDomainsC4.reverse.find? (fun d => d.name == z) = none := by
          simp [exDomainsC4, List.find?, e1, e2, e3]
        unfold edgeRel depsGet at hz
        rw [hfind] at hz
        simp at hz

/-- C4 counterexample: on the mapping `a → b`, `b → c`, `c → b` the
validator fails naming `a`, but `a` lies on no cycle (it has no incoming
edge), refuting "the message names a domain lying on that cycle". -/
theorem C4_counterexample :
    validate_no_circular_dependencies exDomainsC4
      = .error "Circular dependency detected involving domain: a"
    ∧ ¬ Relation.TransGen (edgeRel exDomainsC4) "a" "a" := by
  constructor
  · rfl
  · intro h
    obtain ⟨z, hz⟩ := transGen_last_edge h
    exact no_edge_into_a z hz

/-- Witness for C4: at the concrete cyclic mapping the amended theorem's
hypotheses are dischargeable — the iff's two sides are both false, and the
error branch yields a declared domain reaching a cycle. -/
theorem C4_graph_validation_witness :
    ∃ d ∈ exDomainsC4,
      "Circular dependency detected involving domain: a"
        = "Circular dependency detected involving domain: " ++ d.name ∧
      ∃ c, Relation.ReflTransGen (edgeRel exDomainsC4) d.name c ∧
        Relation.TransGen (edgeRel exDomainsC4) c c :=
  (C4_graph_validation exDomainsC4).2
    "Circular dependency detected involving domain: a" rfl

/-! ## Template Environment Builder (`build_template_variables`)

A line-by-line transcription of `build_template_variables`.  The two
`datetime.now(timezone.utc)` reads are made explicit clock parameters
(`nowIso`, `nowFmt`); everything else is computed from the three
documents.  Python floats are modelled as exact rationals (`int(x * 100)`
becomes truncation toward zero); no claim below depends on float
rounding or formatting. -/

/-- Python `value == "literal"` for a string literal: strings compare by
content, any non-string compares unequal (`None == "x"` is `False`). -/
def pyEqStr (v : JVal) (s : String) : Bool :=
  match v with
  | .str t => t = s
  | _ => false

/-- Numeric coercion for the arithmetic `x * 100` (`int` / `float` /
`bool` are Python numbers; other operands would raise `TypeError`). -/
def jvalToRat : JVal → Rat
  | .int n => n
  | .float q => q
  | .bool b => if b then 1 else 0
  | _ => 0

/-- Python `int(q)`: truncation toward zero. -/
def ratTrunc (q : Rat) : Int :=
  if 0 ≤ q then ⌊q⌋ else ⌈q⌉

/-- `int(v * 100)` as used for the opacity percentages. -/
def pyIntOfMul100 (v : JVal) : Int :=
  ratTrunc (jvalToRat v * 100)

/-- `build_template_variables(plan, prd, erd)`: the flat substitution
environment.  (The source extracts `prd["data"]` and `erd["data"]` but
uses neither in the dictionary it builds.) -/
def build_template_variables (plan prd erd : JVal) (nowIso nowFmt : String) :
    List (String × JVal) :=
  let data := plan.getD "data" (.obj [])
  let project_name := data.getD "project_name" (.str "Project")
  let project_slug :=
    ((project_name.asStr.toLower).replace " " "-").replace "_" "-"
  let design_brief := data.getD "design_brief" (.obj [])
  let colors := design_brief.getD "colors" (.obj [])
  let glassmorphism := design_brief.getD "glassmorphism" (.obj [])
  let typography := design_brief.getD "typography" (.obj [])
  let breakpoints := design_brief.getD "responsive_breakpoints" (.obj [])
  let domains := (data.getD "domain_mapping" (.obj [])).getD "domains" (.arr [])
  let features := data.getD "feature_selections" (.obj [])
  [("PROJECT_NAME", project_name),
   ("PROJECT_SLUG", .str project_slug),
   ("VERSION", data.getD "version" (.str "1.0.0")),
   ("CREATED_AT", .str nowIso),
   ("GENERATED_AT", .str nowFmt),
   ("ARCHITECTURE_STYLE", data.getD "architecture_style" (.str "modular_monolith")),
   ("DESIGN_PRESET", design_brief.getD "preset" (.str "corporate")),
   ("PRESET_CREATIVE", .bool (pyEqStr (design_brief.get? "preset") "creative")),
   ("PRESET_CORPORATE", .bool (pyEqStr (design_brief.get? "preset") "corporate")),
   ("PRESET_NEUTRAL", .bool (pyEqStr (design_brief.get? "preset") "neutral")),
   ("PRESET_CUSTOM", .bool (pyEqStr (design_brief.get? "preset") "custom")),
   ("PRIMARY_COLOR", colors.getD "primary" (.str "#14b8a6")),
   ("SECONDARY_COLOR", colors.getD "secondary" (.str "#0d9488")),
   ("ACCENT_COLOR_1",
     if (colors.get? "accent").truthy then
       (colors.getD "accent" (.arr [.str "#0891b2"])).idx 0
     else .str "#0891b2"),
   ("ACCENT_COLOR_2",
     if (colors.getD "accent" (.arr [])).pyLen > 1 then
       (colors.getD "accent" (.arr [.str "#0891b2", .str "#0891b2"])).idx 1
     else .str "#0891b2"),
   ("BACKGROUND_COLOR", colors.getD "background" (.str "#ffffff")),
   ("SURFACE_COLOR", colors.getD "surface" (.str "#f0fdfa")),
   ("TEXT_PRIMARY", colors.getD "text_primary" (.str "#134e4a")),
   ("TEXT_SECONDARY", colors.getD "text_secondary" (.str "#64748b")),
   ("SUCCESS_COLOR", colors.getD "success" (.str "#10b981")),
   ("WARNING_COLOR", colors.getD "warning" (.str "#f59e0b")),
   ("ERROR_COLOR", colors.getD "error" (.str "#ef4444")),
   ("GLASSMORPHISM_ENABLED", glassmorphism.getD "enabled" (.bool true)),
   ("BLUR_INTENSITY", glassmorphism.getD "blur_intensity" (.str "xl")),
   ("GLASS_OPACITY",
     .int (pyIntOfMul100 (glassmorphism.getD "opacity" (.float (7/10))))),
   ("BORDER_OPACITY",
     .int (pyIntOfMul100 (glassmorphism.getD "border_opacity" (.float (3/10))))),
   ("SHADOW_OPACITY",
     .int (pyIntOfMul100 (glassmorphism.getD "shadow_color_opacity" (.float (1/10))))),
   ("FONT_HEADING", typography.getD "font_family_heading" (.str "Inter")),
   ("FONT_BODY", typography.getD "font_family_body" (.str "Inter")),
   ("FONT_MONO", typography.getD "font_family_mono" (.str "JetBrains Mono")),
   ("FONT_BASE_SIZE", typography.getD "base_size" (.str "16px")),
   ("FONT_SCALE_RATIO", typography.getD "scale_ratio" (.float (5/4))),
   ("BREAKPOINT_SM", breakpoints.getD "sm" (.str "640px")),
   ("BREAKPOINT_MD", breakpoints.getD "md" (.str "768px")),
   ("BREAKPOINT_LG", breakpoints.getD "lg" (.str "1024px")),
   ("BREAKPOINT_XL", breakpoints.getD "xl" (.str "1280px")),
   ("BREAKPOINT_2XL", breakpoints.getD "2xl" (.str "1536px")),
   ("COMPONENT_STYLE", design_brief.getD "component_style" (.str "rounded")),
   ("STYLE_ROUNDED", .bool (pyEqStr (design_brief.get? "component_style") "rounded")),
   ("STYLE_SHARP", .bool (pyEqStr (design_brief.get? "component_style") "sharp")),
   ("STYLE_PILL", .bool (pyEqStr (design_brief.get? "component_style") "pill")),
   ("DARK_MODE_ENABLED", design_brief.getD "dark_mode_support" (.bool true)),
   ("DATABASE_TYPE", features.getD "db" (.str "postgres")),
   ("AUTH_PROVIDER", features.getD "auth" (.str "nextauth")),
   ("STORAGE_PROVIDER", features.getD "storage" (.str "s3")),
   ("FRAMEWORK", features.getD "framework" (.str "nestjs")),
   ("LANGUAGE", features.getD "language" (.str "typescript")),
   ("domains", domains)]

/-- A plan whose `design_brief` is present but omits the `preset` field. -/
def exPlanC5 : JVal :=
  .obj [("data", .obj
    [("project_name", .str "Acme"),
     ("design_brief", .obj
       [("colors", .obj [("primary", .str "#123456")])])])]

/-- C5: the claim (and the `DesignBrief` model, whose declared default is
`DesignPreset.NEUTRAL`) says a missing preset defaults to `"neutral"`,
but `build_template_variables` hard-codes the fallback `"corporate"`:
evaluating the builder at a plan whose design brief omits `preset` maps
`DESIGN_PRESET` to `"corporate"`. -/
theorem C5_missing_preset_maps_to_corporate :
    lookupVar (build_template_variables exPlanC5 (.obj []) (.obj [])
        "2024-01-01T00:00:00+00:00" "2024-01-01 00:00:00 UTC")
      "DESIGN_PRESET" = some (.str "corporate")
    ∧ JVal.str "corporate" ≠ JVal.str "neutral" := by
  constructor
  · rfl
  · simp

/-- The accent list the builder reads from a plan. -/
def planAccent (plan : JVal) : JVal :=
  ((((plan.getD "data" (.obj [])).getD "design_brief" (.obj [])).getD
    "colors" (.obj [])).getD "accent" (.arr []))

theorem lookupVar_build_accent2 (plan prd erd : JVal) (nowIso nowFmt : String) :
    lookupVar (build_template_variables plan prd erd nowIso nowFmt)
        "ACCENT_COLOR_2"
      = some (if (planAccent plan).pyLen > 1 then
            (((((plan.getD "data" (.obj [])).getD "design_brief"
                (.obj [])).getD "colors" (.obj [])).getD "accent"
                (.arr [.str "#0891b2", .str "#0891b2"])).idx 1)
          else .str "#0891b2") := rfl

/-- C6 (amended): when the design brief's accent list has fewer than two
entries — in particular when it contains exactly one color — the builder
maps `ACCENT_COLOR_2` to the fixed default `"#0891b2"`, not to the first
accent color. -/
theorem C6_accent2_falls_back_to_fixed_default
    (plan prd erd : JVal) (nowIso nowFmt : String)
    (h : (planAccent plan).pyLen ≤ 1) :
    lookupVar (build_template_variables plan prd erd nowIso nowFmt)
      "ACCENT_COLOR_2" = some (.str "#0891b2") := by
  rw [lookupVar_build_accent2, if_neg (by omega)]

/-- A plan whose accent list holds exactly one color, distinct from the
hard-coded default. -/
def exPlanC6 : JVal :=
  .obj [("data", .obj
    [("project_name", .str "Acme"),
     ("design_brief", .obj
       [("colors", .obj [("accent", .arr [.str "#ff0000"])])])])]

/-- C6 counterexample: with a one-element accent list `["#ff0000"]` the
builder yields `ACCENT_COLOR_1 = "#ff0000"` but
`ACCENT_COLOR_2 = "#0891b2"` — it does not fall back to the first accent
color. -/
theorem C6_counterexample :
    lookupVar (build_template_variables exPlanC6 (.obj []) (.obj [])
        "2024-01-01T00:00:00+00:00" "2024-01-01 00:00:00 UTC")
      "ACCENT_COLOR_1" = some (.str "#ff0000")
    ∧ lookupVar (build_template_variables exPlanC6 (.obj []) (.obj [])
        "2024-01-01T00:00:00+00:00" "2024-01-01 00:00:00 UTC")
      "ACCENT_COLOR_2" = some (.str "#0891b2")
    ∧ JVal.str "#0891b2" ≠ JVal.str "#ff0000" := by
  exact ⟨rfl, rfl, by simp⟩

/-- Witness for C6: the amended theorem applies at the concrete
one-accent plan, its hypothesis discharged by evaluation. -/
theorem C6_accent2_falls_back_witness :
    lookupVar (build_template_variables exPlanC6 (.obj []) (.obj [])
        "2024-01-01T00:00:00+00:00" "2024-01-01 00:00:00 UTC")
      "ACCENT_COLOR_2" = some (.str "#0891b2") :=
  C6_accent2_falls_back_to_fixed_default exPlanC6 (.obj []) (.obj [])
    "2024-01-01T00:00:00+00:00" "2024-01-01 00:00:00 UTC" (by decide)

/-- The environment with the two clock-derived variables removed. -/
def stripTimestampVars (l : List (String × JVal)) : List (String × JVal) :=
  l.filter (fun kv => !(kv.1 == "CREATED_AT" || kv.1 == "GENERATED_AT"))

/-- C7 (amended): the environment builder is pure *up to the clock*: for
a fixed plan, PRD and ERD, any two invocations agree on every variable
except `CREATED_AT` and `GENERATED_AT`, which record the current time. -/
theorem C7_builder_pure_except_timestamps
    (plan prd erd : JVal) (t1 f1 t2 f2 : String) :
    stripTimestampVars (build_template_variables plan prd erd t1 f1)
      = stripTimestampVars (build_template_variables plan prd erd t2 f2) := rfl

/-- C7 counterexample: two invocations of the builder on identical
documents but different ambient clock readings produce different
environments (their `CREATED_AT` values differ), refuting purity as
stated. -/
theorem C7_counterexample :
    lookupVar (build_template_variables exPlanC5 (.obj []) (.obj [])
        "2024-01-01T00:00:00+00:00" "2024-01-01 00:00:00 UTC")
      "CREATED_AT" = some (.str "2024-01-01T00:00:00+00:00")
    ∧ lookupVar (build_template_variables exPlanC5 (.obj []) (.obj [])
        "2025-06-30T12:34:56+00:00" "2025-06-30 12:34:56 UTC")
      "CREATED_AT" = some (.str "2025-06-30T12:34:56+00:00")
    ∧ build_template_variables exPlanC5 (.obj []) (.obj [])
        "2024-01-01T00:00:00+00:00" "2024-01-01 00:00:00 UTC"
      ≠ build_template_variables exPlanC5 (.obj []) (.obj [])
        "2025-06-30T12:34:56+00:00" "2025-06-30 12:34:56 UTC" := by
  refine ⟨rfl, rfl, ?_⟩
  intro h
  have h2 := congrArg (fun l => lookupVar l "CREATED_AT") h
  simp only [] at h2
  rw [show lookupVar (build_template_variables exPlanC5 (.obj []) (.obj [])
        "2024-01-01T00:00:00+00:00" "2024-01-01 00:00:00 UTC") "CREATED_AT"
      = some (.str "2024-01-01T00:00:00+00:00") from rfl,
    show lookupVar (build_template_variables exPlanC5 (.obj []) (.obj [])
        "2025-06-30T12:34:56+00:00" "2025-06-30 12:34:56 UTC") "CREATED_AT"
      = some (.str "2025-06-30T12:34:56+00:00") from rfl] at h2
  simp at h2

/-! ## String utilities

Kernel-reducible character-level models of the Python string operations
the script uses (`lower`, `strip`, `replace`, `split`, `join`,
`startswith`, suffix handling, `sorted`).  All are ASCII-exact; the
script's own literals and the theorems' inputs are ASCII. -/

/-- Python `str.lower` (ASCII). -/
def pyLower (s : String) : String := ⟨s.data.map Char.toLower⟩

/-- `needle` is a prefix of `hay`. -/
def startsList : List Char → List Char → Bool
  | [], _ => true
  | _ :: _, [] => false
  | p :: ps, c :: cs => p = c && startsList ps cs

/-- Python `needle in hay` (substring test). -/
def subOccurs (needle : List Char) : List Char → Bool
  | [] => needle.isEmpty
  | c :: rest => startsList needle (c :: rest) || subOccurs needle rest

/-- Python `hay.startswith(needle)`. -/
def pyStartsWith (hay needle : String) : Bool := startsList needle.data hay.data

/-- Python `needle in hay` on strings. -/
def pyContains (hay needle : String) : Bool := subOccurs needle.data hay.data

/-- Strip a literal prefix, returning the remainder on success. -/
def stripLit? : List Char → List Char → Option (List Char)
  | [], cs => some cs
  | _ :: _, [] => none
  | p :: ps, c :: cs => if c = p then stripLit? ps cs else none

/-- One pass of Python `str.replace(pat, repl)`: left-to-right,
non-overlapping, resuming after each replacement.  The fuel dominates the
text length (`pat` is non-empty at every call site). -/
def pyReplaceGo (pat repl : List Char) : Nat → List Char → List Char
  | 0, cs => cs
  | _ + 1, [] => []
  | n + 1, c :: rest =>
    match stripLit? pat (c :: rest) with
    | some r => repl ++ pyReplaceGo pat repl n r
    | none => c :: pyReplaceGo pat repl n rest

/-- Python `s.replace(pat, repl)`. -/
def pyReplace (s pat repl : String) : String :=
  ⟨pyReplaceGo pat.data repl.data s.data.length s.data⟩

/-- Python `str.strip()` (default whitespace). -/
def pyStrip (s : String) : String :=
  ⟨((s.data.dropWhile Char.isWhitespace).reverse.dropWhile
      Char.isWhitespace).reverse⟩

/-- Split on a single-character separator (Python `str.split(sep)` for the
one-character separators `.`/`-`/`/` the script uses). -/
def splitOnChar (sep : Char) : List Char → List (List Char)
  | [] => [[]]
  | c :: rest =>
    let r := splitOnChar sep rest
    if c = sep then [] :: r
    else
      match r with
      | [] => [[c]]
      | h :: t => (c :: h) :: t

/-- Python `s.split(sep)` for a one-character separator. -/
def pySplit (s : String) (sep : Char) : List String :=
  (splitOnChar sep s.data).map String.mk

/-- Python `sep.join(parts)`. -/
def pyJoin (sep : String) (parts : List String) : String :=
  match parts with
  | [] => ""
  | p :: rest => rest.foldl (fun acc q => acc ++ sep ++ q) p

/-- Python `str.capitalize`: first character upper-cased, the rest
lower-cased. -/
def pyCapitalize (s : String) : String :=
  match s.data with
  | [] => ""
  | c :: rest => ⟨c.toUpper :: rest.map Char.toLower⟩

/-- Code-point comparison, as Python compares strings. -/
def lexLe : List Char → List Char → Bool
  | [], _ => true
  | _ :: _, [] => false
  | a :: as, b :: bs => if a = b then lexLe as bs else decide (a.toNat < b.toNat)

/-- Insertion into a sorted list (for Python `sorted`). -/
def insertSorted (s : String) : List String → List String
  | [] => [s]
  | t :: rest => if lexLe s.data t.data then s :: t :: rest else t :: insertSorted s rest

/-- Python `sorted` on strings (insertion sort; stability irrelevant for
the distinct strings it is applied to). -/
def sortStr (l : List String) : List String := l.foldr insertSorted []

/-- The index after the last `.` of a file name, provided that dot is not
the leading character (the `pathlib` suffix rule); `none` when the name
has no suffix. -/
def lastDotIdx : List Char → Option Nat
  | [] => none
  | c :: rest =>
    match lastDotIdx rest with
    | some i => some (i + 1)
    | none => if c = '.' then some 0 else none

/-- `pathlib.PurePath.suffix` of a file name. -/
def fileSuffix (name : String) : String :=
  match lastDotIdx name.data with
  | none => ""
  | some 0 => ""
  | some i => ⟨name.data.drop i⟩

/-- `path.with_suffix("")` applied to a file name. -/
def dropFileSuffix (name : String) : String :=
  match lastDotIdx name.data with
  | none => name
  | some 0 => name
  | some i => ⟨name.data.take i⟩

/-! ### The `{{VAR}}` interpolation pass and the `{{#each domains}}` pass -/

/-- Match the variable regex `\{\{([A-Z_0-9]+)\}\}` at the head of the
text, returning the captured name and the remainder. -/
def matchVarOpen? : List Char → Option (String × List Char)
  | a :: b :: rest =>
    if a = '{' ∧ b = '{' then
      if (rest.takeWhile varChar).isEmpty then none
      else
        match rest.dropWhile varChar with
        | x :: y :: r2 =>
          if x = '}' ∧ y = '}' then some (⟨rest.takeWhile varChar⟩, r2)
          else none
        | _ => none
    else none
  | _ => none

/-- `str(value)` as applied by `replace_var` after its `bool` and numeric
checks.  Rationals with denominator 1 print as integers; other rationals
print as `num/den` — an admitted divergence from Python float formatting,
which no claim depends on.  List/dict values are unreachable here: every
upper-case environment key maps to a scalar and the lone list entry is the
lower-case key `domains`, which the variable regex cannot match. -/
def pyStrScalar : JVal → String
  | .null => ""
  | .bool b => if b then "True" else "False"
  | .int n => toString n
  | .float q => if q.den = 1 then toString q.num else toString q.num ++ "/" ++ toString q.den
  | .str s => s
  | .arr _ => "[list]"
  | .obj _ => "[dict]"

/-- `replace_var` of `substitute_variables`: booleans render as
`true`/`false`, numbers in decimal, `None` as empty, unknown names stay
verbatim. -/
def replace_var (vars : List (String × JVal)) (nm : String) : String :=
  match lookupVar vars nm with
  | none => "\x7b\x7b" ++ nm ++ "\x7d\x7d"
  | some v =>
    match v with
    | .bool b => if b then "true" else "false"
    | .int n => toString n
    | .float q => pyStrScalar (.float q)
    | .null => ""
    | v' => pyStrScalar v'

/-- The single `re.sub` pass for `\{\{([A-Z_0-9]+)\}\}`. -/
def subVarsGo (vars : List (String × JVal)) : Nat → List Char → List Char
  | 0, cs => cs
  | _ + 1, [] => []
  | n + 1, c :: rest =>
    match matchVarOpen? (c :: rest) with
    | some (nm, after) => (replace_var vars nm).data ++ subVarsGo vars n after
    | none => c :: subVarsGo vars n rest

/-- The `{{VARIABLE}}` interpolation pass. -/
def subVars (vars : List (String × JVal)) (s : String) : String :=
  ⟨subVarsGo vars s.data.length s.data⟩

/-- Literal opener `{{#each domains}}`. -/
def eachOpenPat : List Char :=
  ['{', '{', '#', 'e', 'a', 'c', 'h', ' ', 'd', 'o', 'm', 'a', 'i', 'n', 's', '}', '}']

/-- Literal closer `{{/each}}`. -/
def eachClosePat : List Char := ['{', '{', '/', 'e', 'a', 'c', 'h', '}', '}']

/-- Split at the first occurrence of a literal marker. -/
def splitAtLit (pat : List Char) : List Char → Option (List Char × List Char)
  | [] => none
  | c :: rest =>
    match stripLit? pat (c :: rest) with
    | some r => some ([], r)
    | none =>
      match splitAtLit pat rest with
      | some (inner, post) => some (c :: inner, post)
      | none => none

/-- `", ".join(...)` over a list value of strings. -/
def joinComma (xs : List JVal) : String :=
  pyJoin ", " (xs.map JVal.asStr)

/-- One instantiation of an `{{#each domains}}` body for one domain
record (the chain of direct `str.replace` calls of `replace_each`). -/
def renderEachItem (domain : JVal) (template : String) : String :=
  let item := pyReplace template "\x7b\x7bname\x7d\x7d"
    (domain.getD "name" (.str "")).asStr
  let item := pyReplace item "\x7b\x7bdescription\x7d\x7d"
    (domain.getD "description" (.str "")).asStr
  let item := pyReplace item "\x7b\x7broot_entity\x7d\x7d"
    (domain.getD "root_entity" (.str "")).asStr
  let item := pyReplace item "\x7b\x7bentities\x7d\x7d"
    (joinComma (domain.getD "entities" (.arr [])).asArr)
  let depStr := joinComma (domain.getD "dependencies" (.arr [])).asArr
  let item := pyReplace item "\x7b\x7bdependencies\x7d\x7d"
    (if depStr = "" then "None" else depStr)
  let item := pyReplace item "\x7b\x7bfeatures\x7d\x7d"
    (joinComma (domain.getD "feature_ids" (.arr [])).asArr)
  item

/-- `"".join` of the per-domain instantiations. -/
def renderEachAll (domains : List JVal) (template : String) : String :=
  String.join (domains.map (fun d => renderEachItem d template))

/-- The single `re.sub` pass for
`\{\{#each domains\}\}(.*?)\{\{/each\}\}`. -/
def subEachGo (domains : List JVal) : Nat → List Char → List Char
  | 0, cs => cs
  | _ + 1, [] => []
  | n + 1, c :: rest =>
    match stripLit? eachOpenPat (c :: rest) with
    | some afterOpen =>
      match splitAtLit eachClosePat afterOpen with
      | some (inner, post) =>
        (renderEachAll domains ⟨inner⟩).data ++ subEachGo domains n post
      | none => c :: subEachGo domains n rest
    | none => c :: subEachGo domains n rest

/-- `process_each_domains` of `substitute_variables`. -/
def process_each_domains (vars : List (String × JVal)) (s : String) : String :=
  ⟨subEachGo (((lookupVar vars "domains").getD (.arr [])).asArr)
    s.data.length s.data⟩

/-- `substitute_variables(content, variables)`: the three passes in
source order — variable interpolation, the conditional fixpoint loop,
then the each-blocks. -/
def substitute_variables (content : String) (vars : List (String × JVal)) : String :=
  process_each_domains vars (process_conditionals vars (subVars vars content))

/-! ## Filesystem model

Paths are segment lists.  The project tree (`PFS`) holds everything under
the target root; the template tree (`TFS`) holds `templates/child-project`
and is read-only (the script never writes there: the target root is
outside the factory's template directory).  Metadata the script collects
from `stat` (size, permission bits) is operating-system state outside this
model; the result keeps the created paths. -/

abbrev FPath := List String

/-- First-match lookup of a file's content; writes prepend, so the first
match is the latest write. -/
def pathLookup : List (FPath × String) → FPath → Option String
  | [], _ => none
  | (q, c) :: rest, p => if q = p then some c else pathLookup rest p

/-- All non-empty prefixes of a path — `mkdir(parents=True)` creates every
ancestor. -/
def pathAncestors (p : FPath) : List FPath :=
  (List.range p.length).map (fun i => p.take (i + 1))

/-- The project tree under the target root. -/
structure PFS where
  files : List (FPath × String)
  dirs : List FPath
  execBits : List FPath

def PFS.readFile (fs : PFS) (p : FPath) : Option String := pathLookup fs.files p

def PFS.fileExists (fs : PFS) (p : FPath) : Bool := (fs.readFile p).isSome

def PFS.dirExists (fs : PFS) (p : FPath) : Bool := fs.dirs.contains p

/-- Python `Path.exists()`: file or directory. -/
def PFS.existsPath (fs : PFS) (p : FPath) : Bool :=
  fs.dirExists p || fs.fileExists p

/-- `path.write_text(content)`. -/
def PFS.writeFile (fs : PFS) (p : FPath) (content : String) : PFS :=
  { fs with files := (p, content) :: fs.files }

/-- `ensure_directory(path)` = `path.mkdir(parents=True, exist_ok=True)`. -/
def PFS.ensureDir (fs : PFS) (p : FPath) : PFS :=
  { fs with dirs := pathAncestors p ++ fs.dirs }

/-- `chmod(... | S_IXUSR | S_IXGRP | S_IXOTH)` on the commit hook. -/
def PFS.chmodExec (fs : PFS) (p : FPath) : PFS :=
  { fs with execBits := p :: fs.execBits }

/-- The read-only template tree (`TEMPLATES_DIR`). -/
structure TFS where
  files : List (FPath × String)
  dirs : List FPath

def TFS.readFile (fs : TFS) (p : FPath) : Option String := pathLookup fs.files p

def TFS.fileExists (fs : TFS) (p : FPath) : Bool := (fs.readFile p).isSome

def TFS.dirExists (fs : TFS) (p : FPath) : Bool := fs.dirs.contains p

def TFS.existsPath (fs : TFS) (p : FPath) : Bool :=
  fs.dirExists p || fs.fileExists p

/-- The last path segment (`path.name`). -/
def lastSeg (p : FPath) : String := p.getLast?.getD ""

/-- `dir.glob("*.template")`: the files directly inside `dir` whose name
ends in `.template` (in store order; the script only counts and copies
them, so enumeration order is immaterial). -/
def TFS.glob (fs : TFS) (dir : FPath) : List FPath :=
  (fs.files.filter (fun e =>
    e.1.dropLast = dir && pyStartsWith ((lastSeg e.1).data.reverse.asString)
      (".template".data.reverse.asString))).map (·.1)

/-- Interpret a Python path string relative to the project root. -/
def dirOfString (s : String) : FPath :=
  (pySplit s '/').filter (fun seg => seg != "")

/-- Render a path for placeholder content (Python embeds the absolute
path; the model renders it root-relative). -/
def pathStr (p : FPath) : String := pyJoin "/" p

/-- `apply_template_file(source_path, target_path, variables, dry_run)`:
read the template, substitute, and (outside dry-run) write it at the
target with a final `.template` suffix stripped.  Returns Python's return
value and the updated project tree. -/
def apply_template_file (tfs : TFS) (pfs : PFS) (source target : FPath)
    (vars : List (String × JVal)) (dry : Bool) : Bool × PFS :=
  match tfs.readFile source with
  | none => (false, pfs)
  | some content =>
    let content := substitute_variables content vars
    if !dry then
      let pfs := pfs.ensureDir target.dropLast
      let final_path :=
        if fileSuffix (lastSeg target) = ".template" then
          target.dropLast ++ [dropFileSuffix (lastSeg target)]
        else target
      (true, pfs.writeFile final_path content)
    else (true, pfs)

/-! ## Filesystem Materializer (`create_domain_structure`, `inject_*`,
`write_placeholder_file`, `apply_plan`) -/

/-- Per-domain report entry of `domains_created`. -/
structure DomainReport where
  name : String
  files_created : Nat
  directories_created : Nat

/-- Per-group entry of `templates_applied`. -/
structure AppliedGroup where
  template_id : JVal
  status : String
  files_created : Nat
  directories_created : Nat

/-- The result record of `apply_plan` (`files_created` keeps the created
paths; size and permission metadata are OS state outside the model). -/
structure ApplyResult where
  files_created : List String
  templates_applied : List AppliedGroup
  domains_created : List DomainReport
  architecture_rules_injected : JVal
  husky_configured : JVal
  eslint_configured : JVal
  design_system_injected : JVal

def barrelIndexContent (dn : String) : String :=
  "// " ++ dn ++ " domain barrel export\nexport * from \x27./components\x27\nexport * from \x27./constants\x27\n"

def componentsBarrelContent (dn : String) : String :=
  "// " ++ dn ++ " components barrel\n// Export components as they are created\n"

def constantsBarrelContent (dn : String) : String :=
  "// " ++ dn ++ " constants barrel\n// Export content constants as they are created\n"

def hooksBarrelContent (dn : String) : String :=
  "// " ++ dn ++ " hooks barrel\n// Export hooks as they are created\n"

def featuresBarrelContent (dn : String) : String :=
  "// " ++ dn ++ " features barrel export\n// Export features as they are created\n"

/-- The body of the `for domain in domains` loop of
`create_domain_structure`: frontend directories and barrel files are
created (and *overwritten*) unconditionally outside dry-run; the backend
`features` barrel is created only when absent. -/
def createOneDomain (d : JVal) (pfs : PFS) (dry : Bool) : DomainReport × PFS :=
  let domain_name := (d.getD "name" (.str "unknown")).asStr
  let fdp : FPath := ["src", "domains", domain_name]
  let frontend_dirs : List FPath :=
    [fdp, fdp ++ ["components"], fdp ++ ["constants"], fdp ++ ["hooks"]]
  let dirs_created := if dry then 0 else frontend_dirs.length
  let pfs := if dry then pfs else frontend_dirs.foldl PFS.ensureDir pfs
  let frontend_files : List (FPath × String) :=
    [(fdp ++ ["index.ts"], barrelIndexContent domain_name),
     (fdp ++ ["components", "index.ts"], componentsBarrelContent domain_name),
     (fdp ++ ["constants", "index.ts"], constantsBarrelContent domain_name),
     (fdp ++ ["hooks", "index.ts"], hooksBarrelContent domain_name)]
  let files_created := if dry then 0 else frontend_files.length
  let pfs := if dry then pfs else
    frontend_files.foldl (fun f e => (f.ensureDir e.1.dropLast).writeFile e.1 e.2) pfs
  let bdp := fdp
  if !(pfs.existsPath bdp) || !(pfs.existsPath (bdp ++ ["features"])) then
    let dirs_created := if dry then dirs_created else dirs_created + 1
    let pfs := if dry then pfs else pfs.ensureDir (bdp ++ ["features"])
    let bfile := bdp ++ ["features", "index.ts"]
    if !(pfs.existsPath bfile) then
      let files_created := if dry then files_created else files_created + 1
      let pfs := if dry then pfs else
        (pfs.ensureDir bfile.dropLast).writeFile bfile (featuresBarrelContent domain_name)
      (⟨domain_name, files_created, dirs_created⟩, pfs)
    else (⟨domain_name, files_created, dirs_created⟩, pfs)
  else (⟨domain_name, files_created, dirs_created⟩, pfs)

/-- `create_domain_structure(project_root, domains, dry_run)`. -/
def create_domain_structure (domains : List JVal) (pfs : PFS) (dry : Bool) :
    List DomainReport × PFS :=
  match domains with
  | [] => ([], pfs)
  | d :: rest =>
    let r := createOneDomain d pfs dry
    let rs := create_domain_structure rest r.2 dry
    (r.1 :: rs.1, rs.2)

/-- The glob-and-apply loop shared by `inject_architecture_rules` and the
UI part of `inject_design_system`. -/
def injectGlobLoop (tfs : TFS) (vars : List (String × JVal)) (dry : Bool)
    (targetDir : FPath) : List FPath → Nat → PFS → Nat × PFS
  | [], n, pfs => (n, pfs)
  | tf :: rest, n, pfs =>
    let target := targetDir ++ [pyReplace (lastSeg tf) ".template" ""]
    let r := apply_template_file tfs pfs tf target vars dry
    injectGlobLoop tfs vars dry targetDir rest (if r.1 then n + 1 else n) r.2

/-- `inject_architecture_rules(project_root, variables, dry_run)`. -/
def inject_architecture_rules (tfs : TFS) (pfs : PFS)
    (vars : List (String × JVal)) (dry : Bool) : Nat × PFS :=
  if tfs.existsPath [".claude", "rules"] then
    injectGlobLoop tfs vars dry [".claude", "rules"]
      (tfs.glob [".claude", "rules"]) 0 pfs
  else (0, pfs)

/-- `inject_quality_tools(project_root, variables, dry_run)`: attempts
ESLint, Prettier, the Husky commit hook (plus `chmod +x`), and the
Tailwind config — always all four, with no per-tool toggle. -/
def inject_quality_tools (tfs : TFS) (pfs : PFS)
    (vars : List (String × JVal)) (dry : Bool) : Nat × PFS :=
  let acc : Nat × PFS := (0, pfs)
  let acc :=
    if tfs.fileExists [".eslintrc.js.template"] then
      let r := apply_template_file tfs acc.2 [".eslintrc.js.template"]
        [".eslintrc.js"] vars dry
      (if r.1 then acc.1 + 1 else acc.1, r.2)
    else acc
  let acc :=
    if tfs.fileExists [".prettierrc.template"] then
      let r := apply_template_file tfs acc.2 [".prettierrc.template"]
        [".prettierrc"] vars dry
      (if r.1 then acc.1 + 1 else acc.1, r.2)
    else acc
  let acc :=
    if tfs.fileExists [".husky", "pre-commit.template"] then
      let r := apply_template_file tfs acc.2 [".husky", "pre-commit.template"]
        [".husky", "pre-commit"] vars dry
      if r.1 then
        let pfs' :=
          if !dry && r.2.existsPath [".husky", "pre-commit"] then
            r.2.chmodExec [".husky", "pre-commit"]
          else r.2
        (acc.1 + 1, pfs')
      else (acc.1, r.2)
    else acc
  let acc :=
    if tfs.fileExists ["tailwind.config.js.template"] then
      let r := apply_template_file tfs acc.2 ["tailwind.config.js.template"]
        ["tailwind.config.js"] vars dry
      (if r.1 then acc.1 + 1 else acc.1, r.2)
    else acc
  acc

/-- `inject_ai_context(project_root, variables, dry_run)`: two canonical
documents copied verbatim, two templates with substitution. -/
def inject_ai_context (tfs : TFS) (pfs : PFS)
    (vars : List (String × JVal)) (dry : Bool) : Nat × PFS :=
  let copyOne : Nat × PFS → String → Nat × PFS := fun acc fn =>
    match tfs.readFile [fn] with
    | some content =>
      let pfs' := if !dry then (acc.2.ensureDir ([fn] : FPath).dropLast).writeFile [fn] content
        else acc.2
      (acc.1 + 1, pfs')
    | none => acc
  let acc := copyOne (0, pfs) "CLAUDE.md"
  let acc := copyOne acc "KREATIVREASON-GUIDE.md"
  let applyOne : Nat × PFS → String × String → Nat × PFS := fun acc st =>
    if tfs.fileExists [st.1] then
      let r := apply_template_file tfs acc.2 [st.1] [st.2] vars dry
      (if r.1 then acc.1 + 1 else acc.1, r.2)
    else acc
  let acc := applyOne acc (".cursorrules.template", ".cursorrules")
  let acc := applyOne acc ("PROJECT_CONTEXT.md.template", "PROJECT_CONTEXT.md")
  acc

/-- `inject_design_system(project_root, variables, dry_run)`. -/
def inject_design_system (tfs : TFS) (pfs : PFS)
    (vars : List (String × JVal)) (dry : Bool) : Nat × PFS :=
  let acc : Nat × PFS :=
    if tfs.existsPath ["src", "components", "ui"] then
      injectGlobLoop tfs vars dry ["src", "components", "ui"]
        (tfs.glob ["src", "components", "ui"]) 0 pfs
    else (0, pfs)
  if tfs.fileExists ["src", "utils", "cn.ts.template"] then
    let r := apply_template_file tfs acc.2 ["src", "utils", "cn.ts.template"]
      ["src", "utils", "cn.ts"] vars dry
    (if r.1 then acc.1 + 1 else acc.1, r.2)
  else acc

/-- `_generate_nestjs_placeholder(path, project_name, filename)`. -/
def generate_nestjs_placeholder (project_name filename : String) : String :=
  let parts := pySplit (pyReplace (pyReplace filename ".ts" "") ".js" "") '.'
  let class_name :=
    if parts.length ≥ 2 then
      let base_name := String.join ((pySplit (parts.getD 0 "") '-').map pyCapitalize)
      let file_type := pyCapitalize (parts.getD 1 "")
      base_name ++ file_type
    else "Placeholder"
  if pyContains filename ".module." then
    "import \x7b Module \x7d from \x27@nestjs/common\x27;\n\n@Module(\x7b\x7d)\nexport class "
      ++ class_name ++ " \x7b\x7d\n"
  else if pyContains filename ".service." then
    "import \x7b Injectable \x7d from \x27@nestjs/common\x27;\n\n@Injectable()\nexport class "
      ++ class_name ++ " \x7b\x7d\n"
  else if pyContains filename ".controller." then
    "import \x7b Controller \x7d from \x27@nestjs/common\x27;\n\n@Controller()\nexport class "
      ++ class_name ++ " \x7b\x7d\n"
  else if pyContains filename ".entity." then
    "import \x7b Entity, PrimaryGeneratedColumn \x7d from \x27typeorm\x27;\n\n@Entity()\nexport class "
      ++ class_name
      ++ " \x7b\n  @PrimaryGeneratedColumn(\x27uuid\x27)\n  id!: string;\n\x7d\n"
  else if pyContains filename ".dto." then
    "export class " ++ class_name ++ " \x7b\x7d\n"
  else
    "export class " ++ class_name ++ " \x7b\x7d\n"

/-- `generate_placeholder_content(path, project_name)` (Python embeds the
absolute path in the text; the model renders the root-relative path). -/
def generate_placeholder_content (p : FPath) (project_name : String) : String :=
  let sfx := pyLower (fileSuffix (lastSeg p))
  let filename := pyLower (lastSeg p)
  if sfx = ".py" then
    "\"\"\"\nAuto-generated placeholder file.\n\"\"\"\n\nif __name__ == \"__main__\":\n    print(\""
      ++ project_name ++ " placeholder: " ++ pathStr p ++ "\")\n"
  else if sfx = ".ts" ∨ sfx = ".js" then
    if pyContains filename ".module." || pyContains filename ".service."
        || pyContains filename ".controller." || pyContains filename ".entity."
        || pyContains filename ".dto." then
      generate_nestjs_placeholder project_name filename
    else
      "// Auto-generated placeholder for " ++ project_name ++ "\nexport \x7b\x7d\n"
  else if sfx = ".tsx" ∨ sfx = ".jsx" then
    "// Auto-generated placeholder for " ++ project_name
      ++ "\nexport default function Placeholder() \x7b\n  return (<div>Placeholder: "
      ++ pathStr p ++ "</div>);\n\x7d\n"
  else if sfx = ".sql" then
    "-- Auto-generated placeholder migration for " ++ project_name
      ++ "\n-- File: " ++ pathStr p ++ "\n"
  else if sfx = ".json" then
    "\x7b\n  \"placeholder\": true,\n  \"project\": \"" ++ project_name ++ "\"\n\x7d"
  else if sfx = ".md" then
    "# Placeholder\n\nFile: " ++ pathStr p ++ "\nProject: " ++ project_name ++ "\n"
  else if lastSeg p = "Makefile" then
    "# Placeholder Makefile\n\n.DEFAULT_GOAL := help\n\nhelp:\n\t@echo \x27Replace with real Makefile content.\x27\n"
  else
    "// Placeholder for " ++ project_name ++ ": " ++ pathStr p ++ "\n"

/-- `write_placeholder_file(path, project_name)`: non-destructive — the
write happens only if the path does not already exist. -/
def write_placeholder_file (pfs : PFS) (p : FPath) (project_name : String) : PFS :=
  let pfs := pfs.ensureDir p.dropLast
  let content := generate_placeholder_content p project_name
  if !(pfs.existsPath p) then pfs.writeFile p content else pfs

/-- The inner `for rel_file in files` loop of step 7 of `apply_plan`:
resolve each listed file against the group's target path, write a
placeholder outside dry-run, and count the files that exist afterwards. -/
def applyAdhocFiles (project_name : String) (normalized_target : String)
    (dry : Bool) : List JVal → Nat → List String → PFS → Nat × List String × PFS
  | [], n, metas, pfs => (n, metas, pfs)
  | rf :: rest, n, metas, pfs =>
    let rel_file := rf.asStr
    let full_path :=
      if normalized_target ≠ "" ∧ ¬ pyStartsWith rel_file normalized_target then
        normalized_target ++ "/" ++ rel_file
      else rel_file
    let file_path := dirOfString full_path
    let pfs := if !dry then write_placeholder_file pfs file_path project_name else pfs
    if pfs.existsPath file_path then
      applyAdhocFiles project_name normalized_target dry rest (n + 1)
        (metas ++ [pathStr file_path]) pfs
    else
      applyAdhocFiles project_name normalized_target dry rest n metas pfs

/-- Python `target_path.lstrip('/').rstrip('/')`. -/
def stripSlashes (s : String) : String :=
  ⟨((s.data.dropWhile (· = '/')).reverse.dropWhile (· = '/')).reverse⟩

/-- The `for template in templates_to_apply` loop of step 7. -/
def applyAdhocTemplates (project_name : String) (dry : Bool) :
    List JVal → List AppliedGroup → List String → PFS →
      List AppliedGroup × List String × PFS
  | [], gs, metas, pfs => (gs, metas, pfs)
  | t :: rest, gs, metas, pfs =>
    let template_id := t.get? "id"
    let target_path := (t.getD "target_path" (.str "")).asStr
    let files := (t.getD "files_to_generate" (.arr [])).asArr
    let r := applyAdhocFiles project_name (stripSlashes target_path) dry
      files 0 [] pfs
    let status := if r.1 = files.length then "success" else "partial"
    applyAdhocTemplates project_name dry rest
      (gs ++ [⟨template_id, status, r.1, 0⟩]) (metas ++ r.2.1) r.2.2

/-- `apply_plan(plan, prd, erd, project_root, dry_run)`. -/
def apply_plan (plan prd erd : JVal) (tfs : TFS) (pfs : PFS) (dry : Bool)
    (nowIso nowFmt : String) : ApplyResult × PFS :=
  let data := plan.getD "data" (.obj [])
  let project_name := (data.getD "project_name" (.str "Project")).asStr
  let vars := build_template_variables plan prd erd nowIso nowFmt
  -- 1. declared directory structure
  let dirKeys : List String :=
    match data.getD "directory_structure" (.obj []) with
    | .obj kvs => kvs.map (·.1)
    | _ => []
  let pfs := if !dry then
      dirKeys.foldl (fun f k => f.ensureDir (dirOfString k)) pfs
    else pfs
  -- 2. domain structure
  let domains := ((data.getD "domain_mapping" (.obj [])).getD "domains" (.arr [])).asArr
  let dc := create_domain_structure domains pfs dry
  let pfs := dc.2
  -- 3. architecture rules
  let archR :=
    if (data.getD "inject_architecture_rules" (.bool true)).truthy then
      let r := inject_architecture_rules tfs pfs vars dry
      (([⟨.str "ARCH-RULES", "success", r.1, 1⟩] : List AppliedGroup), r.2)
    else ([], pfs)
  let pfs := archR.2
  -- 4. quality tools
  let qualR :=
    if (data.getD "inject_husky" (.bool true)).truthy
        || (data.getD "inject_eslint_config" (.bool true)).truthy then
      let r := inject_quality_tools tfs pfs vars dry
      (([⟨.str "QUALITY-TOOLS", "success", r.1, 1⟩] : List AppliedGroup), r.2)
    else ([], pfs)
  let pfs := qualR.2
  -- 5. AI context (always)
  let aiR := inject_ai_context tfs pfs vars dry
  let pfs := aiR.2
  -- 6. design system
  let designR :=
    if (data.getD "inject_design_system" (.bool true)).truthy then
      let r := inject_design_system tfs pfs vars dry
      (([⟨.str "DESIGN-SYSTEM", "success", r.1, 2⟩] : List AppliedGroup), r.2)
    else ([], pfs)
  let pfs := designR.2
  -- 7. ad-hoc template groups
  let adhoc := applyAdhocTemplates project_name dry
    ((data.getD "templates_to_apply" (.arr [])).asArr) [] [] pfs
  (⟨adhoc.2.1,
    archR.1 ++ qualR.1 ++ [⟨.str "AI-CONTEXT", "success", aiR.1, 0⟩]
      ++ designR.1 ++ adhoc.1,
    dc.1,
    data.getD "inject_architecture_rules" (.bool true),
    data.getD "inject_husky" (.bool true),
    data.getD "inject_eslint_config" (.bool true),
    data.getD "inject_design_system" (.bool true)⟩,
   adhoc.2.2)

/-! ## Gates and the main flow (`validate_inputs`, `require_approval`,
`main`)

The upstream Pydantic model validations (`PRDModel(**prd)` etc., defined
across `app/models.py`) are abstracted as their outcomes: `none` for a
document that validates, `some e` for a raised `ValidationError` message
`e` — either way `main` maps any `ValueError` from `validate_inputs` to
the `VALIDATION_FAILED` error code, so the claims hold for every outcome.
Reading the three input documents (the only filesystem access preceding
the gates) is outside the model: documents arrive as values.  `main`'s
result-artifact write is the Result Reporter, also outside the
materializer. -/

def REQUIRED_APPROVERS : List String := ["Cynthia", "Usama"]

/-- `REQUIRED_APPROVERS - set(a.strip() for a in provided)` (as a list;
`sorted` is applied when the message is built). -/
def missingApprovers (provided_approvers : List String) : List String :=
  REQUIRED_APPROVERS.filter
    (fun a => decide (a ∉ provided_approvers.map pyStrip))

/-- `require_approval(provided_approvers)`. -/
def require_approval (provided_approvers : List String) : Except String Unit :=
  if missingApprovers provided_approvers = [] then .ok ()
  else .error ("Missing required approvers: "
    ++ pyJoin ", " (sortStr (missingApprovers provided_approvers)))

/-- Python `==` / set-membership equality for the values compared by the
project-name consistency check.  Lists and dicts are unhashable in Python
— placing one in the `{...}` set literal raises `TypeError` before any
comparison — so the embedding gives them no equalities and no theorem
instantiates them there. -/
def pyEqB : JVal → JVal → Bool
  | .null, .null => true
  | .bool a, .bool b => a == b
  | .bool a, .int b => (if a then (1 : Int) else 0) == b
  | .bool a, .float b => (if a then (1 : Rat) else 0) == b
  | .int a, .bool b => a == (if b then (1 : Int) else 0)
  | .int a, .int b => a == b
  | .int a, .float b => (a : Rat) == b
  | .float a, .bool b => a == (if b then (1 : Rat) else 0)
  | .float a, .int b => a == (b : Rat)
  | .float a, .float b => a == b
  | .str a, .str b => a == b
  | _, _ => false

/-- `len({a, b, c})` for the three project names. -/
def distinctCount3 (a b c : JVal) : Nat :=
  1 + (if pyEqB a b then 0 else 1)
    + (if pyEqB a c || pyEqB b c then 0 else 1)

/-- `validate_inputs` after loading: the three model validations in
order, then the cross-document project-name consistency check. -/
def validateInputsE (pydPrd pydErd pydPlan : Option String)
    (prd erd plan : JVal) : Except String Unit :=
  match pydPrd with
  | some e => .error ("PRD validation failed: " ++ e)
  | none =>
    match pydErd with
    | some e => .error ("ERD validation failed: " ++ e)
    | none =>
      match pydPlan with
      | some e => .error ("Scaffold plan validation failed: " ++ e)
      | none =>
        if distinctCount3 ((prd.getD "data" (.obj [])).get? "project_name")
            ((erd.getD "data" (.obj [])).get? "project_name")
            ((plan.getD "data" (.obj [])).get? "project_name") ≠ 1 then
          .error "Inconsistent project_name across PRD, ERD, and scaffold plan"
        else .ok ()

/-- Events observable in a run of `main`: the approval check and the
invocation of the Filesystem Materializer (which performs all of the
run's target-root filesystem access). -/
inductive MainEvent where
  | approvalCheck
  | materialize
deriving DecidableEq

/-- The `try` block of `main`: validate inputs, check approval, apply the
plan; each failure short-circuits to the corresponding `emit_error`
code.  Returns the outcome, the final project tree, and the events
reached. -/
def mainFlow (pydPrd pydErd pydPlan : Option String) (prd erd plan : JVal)
    (approvers : List String) (dry : Bool) (tfs : TFS) (pfs : PFS)
    (nowIso nowFmt : String) :
    Except (String × String) ApplyResult × PFS × List MainEvent :=
  match validateInputsE pydPrd pydErd pydPlan prd erd plan with
  | .error m => (.error ("VALIDATION_FAILED", m), pfs, [])
  | .ok _ =>
    match require_approval approvers with
    | .error m => (.error ("APPROVAL_REQUIRED", m), pfs, [.approvalCheck])
    | .ok _ =>
      let r := apply_plan plan prd erd tfs pfs dry nowIso nowFmt
      (.ok r.1, r.2, [.approvalCheck, .materialize])

/-! Small filesystem facts: the materializer never deletes, so file
existence is monotone, and a write makes its target exist. -/

theorem fileExists_writeFile_self (pfs : PFS) (p : FPath) (c : String) :
    (pfs.writeFile p c).fileExists p = true := by
  simp [PFS.writeFile, PFS.fileExists, PFS.readFile, pathLookup]

theorem fileExists_writeFile_mono {pfs : PFS} {p : FPath} (q : FPath) (c : String)
    (h : pfs.fileExists p = true) : (pfs.writeFile q c).fileExists p = true := by
  simp only [PFS.writeFile, PFS.fileExists, PFS.readFile, pathLookup]
  split
  · simp
  · exact h

theorem fileExists_ensureDir {pfs : PFS} {p : FPath} (q : FPath)
    (h : pfs.fileExists p = true) : (pfs.ensureDir q).fileExists p = true := h

theorem fileExists_chmodExec {pfs : PFS} {p : FPath} (q : FPath)
    (h : pfs.fileExists p = true) : (pfs.chmodExec q).fileExists p = true := h

theorem apply_template_file_fst (tfs : TFS) (pfs : PFS) (source target : FPath)
    (vars : List (String × JVal)) (dry : Bool) :
    (apply_template_file tfs pfs source target vars dry).1
      = tfs.fileExists source := by
  unfold apply_template_file TFS.fileExists
  cases h : tfs.readFile source with
  | none => simp only [h]; rfl
  | some c => simp only [h]; split <;> rfl

theorem apply_template_file_preserves {tfs : TFS} {pfs : PFS} {p : FPath}
    (source target : FPath) (vars : List (String × JVal)) (dry : Bool)
    (h : pfs.fileExists p = true) :
    (apply_template_file tfs pfs source target vars dry).2.fileExists p = true := by
  unfold apply_template_file
  cases hr : tfs.readFile source with
  | none => exact h
  | some c =>
    simp only
    split
    · exact fileExists_writeFile_mono _ _ (fileExists_ensureDir _ h)
    · exact h

/-- `inject_quality_tools` consults exactly the four template sources,
none of them gated by a plan toggle: its reported count is the number of
the four sources that exist. -/
theorem inject_quality_tools_attempts_all_four (tfs : TFS) (pfs : PFS)
    (vars : List (String × JVal)) (dry : Bool) :
    (inject_quality_tools tfs pfs vars dry).1
      = (if tfs.fileExists [".eslintrc.js.template"] then 1 else 0)
        + (if tfs.fileExists [".prettierrc.template"] then 1 else 0)
        + (if tfs.fileExists [".husky", "pre-commit.template"] then 1 else 0)
        + (if tfs.fileExists ["tailwind.config.js.template"] then 1 else 0) := by
  unfold inject_quality_tools
  by_cases h1 : tfs.fileExists [".eslintrc.js.template"] <;>
    by_cases h2 : tfs.fileExists [".prettierrc.template"] <;>
      by_cases h3 : tfs.fileExists [".husky", "pre-commit.template"] <;>
        by_cases h4 : tfs.fileExists ["tailwind.config.js.template"] <;>
          simp [h1, h2, h3, h4, apply_template_file_fst]


/-- Every group entry produced by the ad-hoc template loop carries the
`id` of one of the plan's ad-hoc templates (or was already accumulated). -/
theorem applyAdhocTemplates_ids (pn : String) (dry : Bool) :
    ∀ (ts : List JVal) (gs : List AppliedGroup) (metas : List String)
      (pfs : PFS) (g : AppliedGroup),
      g ∈ (applyAdhocTemplates pn dry ts gs metas pfs).1 →
      g ∈ gs ∨ ∃ t ∈ ts, g.template_id = t.get? "id" := by
  intro ts
  induction ts with
  | nil =>
    intro gs metas pfs g hg
    rw [applyAdhocTemplates] at hg
    exact Or.inl hg
  | cons t rest ih =>
    intro gs metas pfs g hg
    rw [applyAdhocTemplates] at hg
    rcases ih _ _ _ g hg with hin | ⟨t', ht', he⟩
    · rcases List.mem_append.mp hin with h | h
      · exact Or.inl h
      · rcases List.mem_singleton.mp h with rfl
        exact Or.inr ⟨t, List.mem_cons_self t rest, rfl⟩
    · exact Or.inr ⟨t', List.mem_cons_of_mem t ht', he⟩

/-- Empty project root and template tree for concrete runs. -/
def pfsEmpty : PFS := ⟨[], [], []⟩

def tfsEmpty : TFS := ⟨[], []⟩

/-- Template tree holding only the Husky commit-hook template. -/
def tfsC10 : TFS :=
  ⟨[([".husky", "pre-commit.template"], "npm run lint\n")], [[".husky"]]⟩

/-- Plan with `inject_husky = false` but `inject_eslint_config = true`. -/
def exPlanC10 : JVal :=
  .obj [("data", .obj
    [("project_name", .str "Acme"),
     ("inject_husky", .bool false),
     ("inject_eslint_config", .bool true),
     ("inject_architecture_rules", .bool false),
     ("inject_design_system", .bool false)])]

/-- C10: the quality-tools group runs iff `inject_husky` or
`inject_eslint_config` is truthy (each defaulting to true when absent);
whenever it runs it attempts all four configuration files together (its
count is the number of the four template sources that exist, with no
per-tool gating); and concretely, a plan with `inject_husky = false` and
`inject_eslint_config = true` still writes the commit-hook script. -/
theorem C10_quality_tools_gating
    (plan prd erd : JVal) (tfs : TFS) (pfs : PFS) (dry : Bool)
    (nowIso nowFmt : String)
    (hids : ∀ t ∈ ((plan.getD "data" (.obj [])).getD "templates_to_apply"
        (.arr [])).asArr, t.get? "id" ≠ JVal.str "QUALITY-TOOLS") :
    ((∃ g ∈ (apply_plan plan prd erd tfs pfs dry nowIso nowFmt).1.templates_applied,
        g.template_id = JVal.str "QUALITY-TOOLS")
      ↔ (((plan.getD "data" (.obj [])).getD "inject_husky" (.bool true)).truthy
          || ((plan.getD "data" (.obj [])).getD "inject_eslint_config"
              (.bool true)).truthy) = true)
    ∧ (∀ (tfs' : TFS) (pfs' : PFS) (vars : List (String × JVal)) (dry' : Bool),
        (inject_quality_tools tfs' pfs' vars dry').1
          = (if tfs'.fileExists [".eslintrc.js.template"] then 1 else 0)
            + (if tfs'.fileExists [".prettierrc.template"] then 1 else 0)
            + (if tfs'.fileExists [".husky", "pre-commit.template"] then 1 else 0)
            + (if tfs'.fileExists ["tailwind.config.js.template"] then 1 else 0))
    ∧ (apply_plan exPlanC10 (.obj []) (.obj []) tfsC10 pfsEmpty false
        "t" "f").2.fileExists [".husky", "pre-commit"] = true := by
  refine ⟨?_, fun tfs' pfs' vars dry' =>
    inject_quality_tools_attempts_all_four tfs' pfs' vars dry', rfl⟩
  unfold apply_plan
  simp only []
  constructor
  · rintro ⟨g, hg, hid⟩
    simp only [List.mem_append] at hg
    rcases hg with ((((hg | hg) | hg) | hg) | hg)
    · split at hg
      · rcases List.mem_singleton.mp hg with rfl
        simp at hid
      · simp at hg
    · split at hg
      · rename_i hq
        exact hq
      · simp at hg
    · rcases List.mem_singleton.mp hg with rfl
      simp at hid
    · split at hg
      · rcases List.mem_singleton.mp hg with rfl
        simp at hid
      · simp at hg
    · rcases applyAdhocTemplates_ids _ _ _ _ _ _ g hg with h | ⟨t, ht, he⟩
      · simp at h
      · exact absurd (he ▸ hid) (hids t ht)
  · intro hq
    rw [if_pos hq]
    exact ⟨_, List.mem_append_left _ (List.mem_append_left _
      (List.mem_append_left _ (List.mem_append_right _
        (List.mem_singleton.mpr rfl)))), rfl⟩

/-- Witness for C10: at a concrete plan with `inject_husky = false` and
`inject_eslint_config = true` the gate fires and the group entry is
present. -/
theorem C10_witness :
    ∃ g ∈ (apply_plan exPlanC10 (.obj []) (.obj []) tfsC10 pfsEmpty false
        "t" "f").1.templates_applied,
      g.template_id = JVal.str "QUALITY-TOOLS" :=
  ((C10_quality_tools_gating exPlanC10 (.obj []) (.obj []) tfsC10 pfsEmpty
    false "t" "f" (fun t ht => absurd ht (List.not_mem_nil t))).1).mpr rfl

/-- C8: if the three (structurally object-shaped) input documents carry
project-name strings that are not all identical, the run ends with a
`VALIDATION_FAILED` error — whatever the upstream model validations
report — with the approval check never performed, the materializer never
invoked, and the project tree untouched. -/
theorem C8_consistency_gate_first
    (pydPrd pydErd pydPlan : Option String) (prd erd plan : JVal)
    (approvers : List String) (dry : Bool) (tfs : TFS) (pfs : PFS)
    (nowIso nowFmt : String) (p1 p2 p3 : String)
    (h1 : (prd.getD "data" (.obj [])).get? "project_name" = .str p1)
    (h2 : (erd.getD "data" (.obj [])).get? "project_name" = .str p2)
    (h3 : (plan.getD "data" (.obj [])).get? "project_name" = .str p3)
    (hne : ¬ (p1 = p2 ∧ p2 = p3)) :
    ∃ m, mainFlow pydPrd pydErd pydPlan prd erd plan approvers dry tfs pfs
        nowIso nowFmt
      = (.error ("VALIDATION_FAILED", m), pfs, []) := by
  unfold mainFlow validateInputsE
  cases pydPrd with
  | some e => exact ⟨_, rfl⟩
  | none =>
    cases pydErd with
    | some e => exact ⟨_, rfl⟩
    | none =>
      cases pydPlan with
      | some e => exact ⟨_, rfl⟩
      | none =>
        rw [h1, h2, h3]
        have hcount : distinctCount3 (.str p1) (.str p2) (.str p3) ≠ 1 := by
          unfold distinctCount3 pyEqB
          by_cases e12 : p1 = p2
          · have e23 : ¬ p2 = p3 := fun h => hne ⟨e12, h⟩
            have e13 : ¬ p1 = p3 := fun h => e23 (e12 ▸ h)
            rw [if_pos (beq_iff_eq.mpr e12),
              if_neg (by
                simp only [Bool.or_eq_true, beq_iff_eq]
                rintro (h | h)
                · exact e13 h
                · exact e23 h)]
            omega
          · rw [if_neg (by simpa using e12)]
            split <;> omega
        rw [if_pos hcount]
        exact ⟨_, rfl⟩

def prdAcme : JVal := .obj [("data", .obj [("project_name", .str "Acme")])]

def erdAcme : JVal := .obj [("data", .obj [("project_name", .str "Acme")])]

def planAcme : JVal := .obj [("data", .obj [("project_name", .str "Acme")])]

def planAcmeCorp : JVal :=
  .obj [("data", .obj [("project_name", .str "Acme-Corp")])]

/-- Witness for C8: documents named `"Acme"`, `"Acme"`, `"Acme-Corp"`. -/
theorem C8_consistency_gate_first_witness :
    ∃ m, mainFlow none none none prdAcme erdAcme planAcmeCorp
        ["Cynthia", "Usama"] false tfsEmpty pfsEmpty "t" "f"
      = (.error ("VALIDATION_FAILED", m), pfsEmpty, []) :=
  C8_consistency_gate_first none none none prdAcme erdAcme planAcmeCorp
    ["Cynthia", "Usama"] false tfsEmpty pfsEmpty "t" "f"
    "Acme" "Acme" "Acme-Corp" rfl rfl rfl (by simp)

/-- C9: when validation passes but some required approver is missing from
the (stripped) supplied list, the run fails with `APPROVAL_REQUIRED`, the
message lists exactly the sorted missing approvers, the materializer is
never invoked, and the project tree is untouched (no directory created). -/
theorem C9_approval_gate
    (pydPrd pydErd pydPlan : Option String) (prd erd plan : JVal)
    (approvers : List String) (dry : Bool) (tfs : TFS) (pfs : PFS)
    (nowIso nowFmt : String)
    (hv : validateInputsE pydPrd pydErd pydPlan prd erd plan = .ok ())
    (r : String) (hr : r ∈ REQUIRED_APPROVERS)
    (hrm : r ∉ approvers.map pyStrip) :
    mainFlow pydPrd pydErd pydPlan prd erd plan approvers dry tfs pfs
        nowIso nowFmt
      = (.error ("APPROVAL_REQUIRED", "Missing required approvers: "
            ++ pyJoin ", " (sortStr (missingApprovers approvers))),
          pfs, [.approvalCheck])
    ∧ (∀ a, a ∈ missingApprovers approvers
        ↔ (a ∈ REQUIRED_APPROVERS ∧ a ∉ approvers.map pyStrip)) := by
  have hne : missingApprovers approvers ≠ [] :=
    List.ne_nil_of_mem (List.mem_filter.mpr ⟨hr, by simpa using hrm⟩)
  constructor
  · unfold mainFlow
    rw [hv]
    unfold require_approval
    rw [if_neg hne]
  · intro a
    unfold missingApprovers
    rw [List.mem_filter]
    simp

/-- Witness for C9: supplied `["Cynthia"]` against required
`{"Cynthia", "Usama"}` fails naming exactly `"Usama"`. -/
theorem C9_approval_gate_witness :
    mainFlow none none none prdAcme erdAcme planAcme ["Cynthia"] false
        tfsEmpty pfsEmpty "t" "f"
      = (.error ("APPROVAL_REQUIRED", "Missing required approvers: Usama"),
          pfsEmpty, [.approvalCheck]) := by
  have h := (C9_approval_gate none none none prdAcme erdAcme planAcme
    ["Cynthia"] false tfsEmpty pfsEmpty "t" "f" rfl "Usama"
    (by decide) (by decide)).1
  rw [h]
  rfl

/-! Injection-group counts are functions of the template tree alone:
neither the project tree's current state nor the dry-run flag enters
them (`apply_template_file` returns `True` exactly when the source
exists, in both modes). -/

theorem injectGlobLoop_count (tfs : TFS) (vars : List (String × JVal))
    (tdir : FPath) :
    ∀ (l : List FPath) (dry : Bool) (n : Nat) (pfs : PFS),
      (injectGlobLoop tfs vars dry tdir l n pfs).1
        = n + (l.filter (fun p => tfs.fileExists p)).length := by
  intro l
  induction l with
  | nil => intro dry n pfs; simp [injectGlobLoop]
  | cons tf rest ih =>
    intro dry n pfs
    rw [injectGlobLoop]
    simp only [apply_template_file_fst, List.filter_cons]
    by_cases h : tfs.fileExists tf
    · rw [if_pos h, if_pos h, ih]
      simp [Nat.add_comm, Nat.add_assoc, Nat.add_left_comm]
    · rw [if_neg h, if_neg (by simpa using h), ih]

theorem inject_architecture_rules_count (tfs : TFS) (pfs : PFS)
    (vars : List (String × JVal)) (dry : Bool) :
    (inject_architecture_rules tfs pfs vars dry).1
      = if tfs.existsPath [".claude", "rules"] then
          ((tfs.glob [".claude", "rules"]).filter
            (fun p => tfs.fileExists p)).length
        else 0 := by
  unfold inject_architecture_rules
  by_cases h : tfs.existsPath [".claude", "rules"]
  · rw [if_pos h, if_pos h, injectGlobLoop_count]
    simp
  · rw [if_neg h, if_neg h]

theorem inject_ai_context_count (tfs : TFS) (pfs : PFS)
    (vars : List (String × JVal)) (dry : Bool) :
    (inject_ai_context tfs pfs vars dry).1
      = (if tfs.fileExists ["CLAUDE.md"] then 1 else 0)
        + (if tfs.fileExists ["KREATIVREASON-GUIDE.md"] then 1 else 0)
        + (if tfs.fileExists [".cursorrules.template"] then 1 else 0)
        + (if tfs.fileExists ["PROJECT_CONTEXT.md.template"] then 1 else 0) := by
  unfold inject_ai_context
  cases hc1 : tfs.readFile ["CLAUDE.md"] <;>
    cases hc2 : tfs.readFile ["KREATIVREASON-GUIDE.md"] <;>
      cases hc3 : tfs.readFile [".cursorrules.template"] <;>
        cases hc4 : tfs.readFile ["PROJECT_CONTEXT.md.template"] <;>
          simp [TFS.fileExists, hc1, hc2, hc3, hc4, apply_template_file_fst]

theorem inject_design_system_count (tfs : TFS) (pfs : PFS)
    (vars : List (String × JVal)) (dry : Bool) :
    (inject_design_system tfs pfs vars dry).1
      = (if tfs.existsPath ["src", "components", "ui"] then
            ((tfs.glob ["src", "components", "ui"]).filter
              (fun p => tfs.fileExists p)).length
          else 0)
        + (if tfs.fileExists ["src", "utils", "cn.ts.template"] then 1 else 0) := by
  unfold inject_design_system
  by_cases hui : tfs.existsPath ["src", "components", "ui"] <;>
    by_cases hcn : tfs.fileExists ["src", "utils", "cn.ts.template"] <;>
      simp [hui, hcn, injectGlobLoop_count, apply_template_file_fst]

/-! Dry-run domain structure: the counters sit inside the `if not
dry_run` guards, so every per-domain report is `0/0` and the tree is
untouched. -/

theorem createOneDomain_dry (d : JVal) (pfs : PFS) :
    createOneDomain d pfs true
      = (⟨(d.getD "name" (.str "unknown")).asStr, 0, 0⟩, pfs) := by
  unfold createOneDomain
  simp

theorem create_domain_structure_dry :
    ∀ (domains : List JVal) (pfs : PFS),
      create_domain_structure domains pfs true
        = (domains.map (fun d => ⟨(d.getD "name" (.str "unknown")).asStr, 0, 0⟩),
            pfs) := by
  intro domains
  induction domains with
  | nil => intro pfs; rfl
  | cons d rest ih =>
    intro pfs
    rw [create_domain_structure, createOneDomain_dry, ih]
    rfl

/-- C2 (amended): under dry-run every per-domain report carries
`files_created = 0` and `directories_created = 0` (the counters increment
only when writes happen), while each toggle-gated injection group's
`files_created` count is a function of the template tree alone —
independent of the project tree and of the dry-run flag, hence identical
between a dry and a real run; `templates_to_apply` group counts, by
contrast, count the files found on disk after the (suppressed) writes,
so they diverge on files the real run creates — see the counterexample. -/
theorem C2_dry_run_reporting (plan prd erd : JVal) (tfs : TFS) (pfs : PFS)
    (nowIso nowFmt : String) :
    (∀ rep ∈ (apply_plan plan prd erd tfs pfs true nowIso nowFmt).1.domains_created,
      rep.files_created = 0 ∧ rep.directories_created = 0)
    ∧ (∀ (pfs1 pfs2 : PFS) (vars : List (String × JVal)) (d1 d2 : Bool),
        (inject_architecture_rules tfs pfs1 vars d1).1
          = (inject_architecture_rules tfs pfs2 vars d2).1
        ∧ (inject_quality_tools tfs pfs1 vars d1).1
          = (inject_quality_tools tfs pfs2 vars d2).1
        ∧ (inject_ai_context tfs pfs1 vars d1).1
          = (inject_ai_context tfs pfs2 vars d2).1
        ∧ (inject_design_system tfs pfs1 vars d1).1
          = (inject_design_system tfs pfs2 vars d2).1) := by
  constructor
  · intro rep hrep
    unfold apply_plan at hrep
    simp only [create_domain_structure_dry] at hrep
    obtain ⟨d, -, rfl⟩ := List.mem_map.mp hrep
    exact ⟨rfl, rfl⟩
  · intro pfs1 pfs2 vars d1 d2
    exact ⟨(inject_architecture_rules_count tfs pfs1 vars d1).trans
        (inject_architecture_rules_count tfs pfs2 vars d2).symm,
      (inject_quality_tools_attempts_all_four tfs pfs1 vars d1).trans
        (inject_quality_tools_attempts_all_four tfs pfs2 vars d2).symm,
      (inject_ai_context_count tfs pfs1 vars d1).trans
        (inject_ai_context_count tfs pfs2 vars d2).symm,
      (inject_design_system_count tfs pfs1 vars d1).trans
        (inject_design_system_count tfs pfs2 vars d2).symm⟩

/-- Plan with one domain and one ad-hoc template group, all injection
toggles off. -/
def exPlanC2 : JVal :=
  .obj [("data", .obj
    [("project_name", .str "Acme"),
     ("domain_mapping", .obj
       [("domains", .arr [.obj [("name", .str "billing")]])]),
     ("inject_architecture_rules", .bool false),
     ("inject_husky", .bool false),
     ("inject_eslint_config", .bool false),
     ("inject_design_system", .bool false),
     ("templates_to_apply", .arr
       [.obj [("id", .str "T1"), ("target_path", .str "docs"),
              ("files_to_generate", .arr [.str "readme.md"])]])])]

/-- C2 counterexample: against an initially empty target root, the
dry-run reports `0/0` for the domain `billing` where the real run
reports `5/5`, and the ad-hoc group `T1` reports `partial`/0 under
dry-run versus `success`/1 for the real run — dry-run and real counts
are not identical, and no pre-existing file explains the divergence. -/
theorem C2_counterexample :
    (apply_plan exPlanC2 (.obj []) (.obj []) tfsEmpty pfsEmpty true
        "t" "f").1.domains_created = [⟨"billing", 0, 0⟩]
    ∧ (apply_plan exPlanC2 (.obj []) (.obj []) tfsEmpty pfsEmpty false
        "t" "f").1.domains_created = [⟨"billing", 5, 5⟩]
    ∧ (apply_plan exPlanC2 (.obj []) (.obj []) tfsEmpty pfsEmpty true
        "t" "f").1.templates_applied.map (fun g => (g.status, g.files_created))
      = [("success", 0), ("partial", 0)]
    ∧ (apply_plan exPlanC2 (.obj []) (.obj []) tfsEmpty pfsEmpty false
        "t" "f").1.templates_applied.map (fun g => (g.status, g.files_created))
      = [("success", 0), ("success", 1)]
    ∧ (0 : Nat) ≠ 5 ∧ ("partial" : String) ≠ "success" := by
  exact ⟨rfl, rfl, rfl, rfl, by decide, by decide⟩

/-- Plan with a single domain `billing` and all injection toggles off. -/
def exPlanC1 : JVal :=
  .obj [("data", .obj
    [("project_name", .str "Acme"),
     ("domain_mapping", .obj
       [("domains", .arr [.obj [("name", .str "billing")]])]),
     ("inject_architecture_rules", .bool false),
     ("inject_husky", .bool false),
     ("inject_eslint_config", .bool false),
     ("inject_design_system", .bool false)])]

/-- Target root that already contains a hand-edited domain barrel file. -/
def pfsC1 : PFS :=
  ⟨[(["src", "domains", "billing", "index.ts"], "// my custom content\n")],
   [], []⟩

/-- C1: the failing input for the non-destructive-write invariant.  A
real (non-dry-run) materialization of a plan with domain `billing`
against a root already holding `src/domains/billing/index.ts` replaces
that file's content with the generated barrel export —
`create_domain_structure` writes the frontend barrel files
unconditionally (and `apply_template_file` likewise writes without an
existence check), contradicting the invariant the specification, the
`Only create if doesn't exist` comment, and `write_placeholder_file`'s
own guard all describe. -/
theorem C1_overwrites_existing_file :
    pfsC1.readFile ["src", "domains", "billing", "index.ts"]
      = some "// my custom content\n"
    ∧ (apply_plan exPlanC1 (.obj []) (.obj []) tfsEmpty pfsC1 false
        "t" "f").2.readFile ["src", "domains", "billing", "index.ts"]
      = some (barrelIndexContent "billing")
    ∧ barrelIndexContent "billing" ≠ "// my custom content\n" := by
  exact ⟨rfl, rfl, by decide⟩
